import Mathlib

/-!
# Verification of `sysservice/wsservice/wsservice.go`

A shallow embedding of the websocket service: identifier minting (`genId`,
`GetNodeId`), the client registry (`NewWSClient`, `OnClose`, `SendMsg`,
`Close`, `GetConnNum`), the read loop (`Read`), the event dispatcher
(`WSEventHandler`) and start-up (`OnInit`).

Conventions.
* Go machine integers are natural numbers (or integers for `int`), with the
  wrap-around written out as `% 2 ^ w` wherever the source computes in a
  fixed width.
* Mutable state is passed explicitly; every call the service makes on a
  collaborator (transport connection, processor, event queue, registry lock)
  is appended to a trace, oldest first.
* Collaborators whose code lives in other packages (`node`, `time`,
  `network`, `processor`, `event`) enter as parameters.
-/

namespace wsservice

/-! ## Identifier minting -/

/-- Source: `MaxNodeId = 1<<10 - 1`. -/
def MaxNodeId : Nat := (1 <<< 10) - 1

/-- Source: `MaxSeed = 1<<22 - 1`. -/
def MaxSeed : Nat := (1 <<< 22) - 1

/-- Go `uint64(x)` for an `int` value `x`: reduction modulo `2 ^ 64`. -/
def toUint64 (x : Int) : Nat := (x % (2 ^ 64 : Int)).toNat

/-- Go `time.Time.Second()` for the instant `now` given in whole seconds of
wall-clock time: the second offset within the minute, in `[0, 59]`. -/
def Second (now : Nat) : Nat := now % 60

/-- What one `genId` call leaves behind: the identifier it returned (`none`
when the call panicked) and the value of the package variable `seed`
afterwards. -/
structure GenResult where
  id : Option Nat
  seed : Nat
  deriving DecidableEq

/-- Source: `WSService.genId`, for the node identity `nodeId` returned by
`node.GetNodeId()`, the instant `now` returned by `time.Now()` and the value
`seed` of the package variable (a `uint32`) before the call.
`seedLocker` brackets the update of `seed` and has no sequential effect. -/
def genId (nodeId : Int) (now : Nat) (seed : Nat) : GenResult :=
  if nodeId > (MaxNodeId : Int) then
    { id := none, seed := seed }
  else
    let seed1 := ((seed + 1) % 2 ^ 32) % MaxSeed
    let nowTime := Second now
    { id := some ((((toUint64 nodeId) <<< 54) % 2 ^ 64)
                    ||| ((nowTime <<< 22) % 2 ^ 64) ||| seed1),
      seed := seed1 }

/-- Source: `GetNodeId`, `int(agentId >> 54)` on a `uint64`. -/
def GetNodeId (agentId : Nat) : Int := (((agentId % 2 ^ 64) >>> 54 : Nat) : Int)

/-- The value of `seed` after `k` successive `genId` calls starting from
`seed`, where call `i` reads the clock at `clock i`. -/
def seedAfter (nodeId : Int) (clock : Nat → Nat) (seed : Nat) : Nat → Nat
  | 0 => seed
  | k + 1 => (genId nodeId (clock k) (seedAfter nodeId clock seed k)).seed

/-- The identifier returned by call number `k` (counting from `0`) of a run
of successive `genId` calls, where call `i` reads the clock at `clock i`. -/
def nthId (nodeId : Int) (clock : Nat → Nat) (seed : Nat) (k : Nat) : Option Nat :=
  (genId nodeId (clock k) (seedAfter nodeId clock seed k)).id

/-! ## Data model -/

/-- Source: `type WSPackType int8`. -/
abbrev WSPackType := Int

/-- Source: `WPT_Connected WSPackType = 0`. -/
def WPT_Connected : WSPackType := 0

/-- Source: `WPT_DisConnected WSPackType = 1`. -/
def WPT_DisConnected : WSPackType := 1

/-- Source: `WPT_Pack WSPackType = 2`. -/
def WPT_Pack : WSPackType := 2

/-- Source: `WPT_UnknownPack WSPackType = 3`. -/
def WPT_UnknownPack : WSPackType := 3

/-- Go `interface{}` values that travel through the service: `nil`, a byte
slice, or any other dynamic value (named by a number). -/
inductive Iface
  | nil
  | bytes (b : List Nat)
  | value (v : Nat)
  deriving DecidableEq

/-- Source: `WSPack`. The field `Type` is spelled `Typ`; `MsgProcessor` is the
reference to the processor object. -/
structure WSPack where
  Typ : WSPackType
  MsgProcessor : Nat
  ClientId : Nat
  Data : Iface
  deriving DecidableEq

/-- Source: `WSClient`. `wsConn` is `none` for a nil pointer and otherwise
names the transport connection; `wsService` is the one service modelled. -/
structure WSClient where
  id : Nat
  wsConn : Option Nat
  deriving DecidableEq

/-- Calls the service makes on its collaborators, and its accesses to the
registry map and its lock `mapClientLocker`. -/
inductive Effect
  | Lock
  | Unlock
  | MapGet (clientId : Nat)
  | MapSet (clientId : Nat)
  | MapDelete (clientId : Nat)
  | MapLen
  | NotifyEvent (pack : WSPack)
  | SetReadDeadline (conn : Nat) (d : Nat)
  | SetWriteDeadline (conn : Nat) (d : Nat)
  | ReadMsg (conn : Nat)
  | WriteMsg (conn : Nat) (bytes : List Nat)
  | ConnClose (conn : Nat)
  | Unmarshal (clientId : Nat) (bytes : List Nat)
  | Marshal (clientId : Nat) (msg : Iface)
  | ServerStart
  deriving DecidableEq

/-- Source: the fields of `ws.wsServer` (a `network.WSServer`) that `OnInit`
assigns, with Go's zero values as defaults; `NewAgent` tells whether the
callback is bound to `ws.NewWSClient`. -/
structure WSServer where
  Addr : String := ""
  MaxConnNum : Int := 0
  PendingWriteNum : Int := 0
  MaxMsgLen : Nat := 0
  NewAgent : Bool := false
  deriving DecidableEq

/-- The mutable state: the package variable `seed`, the fields `mapClient`,
`initClientId`, `process` and `wsServer` of the `WSService`, and the trace of
effects so far (oldest first). -/
structure World where
  seed : Nat
  mapClient : List (Nat × WSClient)
  initClientId : Nat
  process : Nat
  trace : List Effect
  wsServer : WSServer := {}
  deriving DecidableEq

/-- Behaviour of the collaborators: the node identity `node.GetNodeId()`, the
processor's `Unmarshal` and `Marshal`, and the error (`none` for nil) that
`WSConn.WriteMsg` returns. -/
structure Env where
  nodeId : Int
  Unmarshal : Nat → List Nat → Except String Iface
  Marshal : Nat → Iface → Except String (List Nat)
  WriteMsg : Nat → List Nat → Option String

/-- How a call ended: it returned a value, it panicked, or its loop is still
running when the supplied collaborator results are used up. -/
inductive Outcome (α : Type)
  | returned (a : α)
  | panicked
  | running
  deriving DecidableEq

/-- Go `time.Second * 60`, a `time.Duration` in nanoseconds. -/
def deadline : Nat := 1000000000 * 60

/-! ## The registry map -/

/-- Go `v, ok := m[id]`. -/
def mapGet : List (Nat × WSClient) → Nat → Option WSClient
  | [], _ => none
  | (k, v) :: m, id => if k = id then some v else mapGet m id

/-- Go `delete(m, id)`. -/
def mapDelete (m : List (Nat × WSClient)) (id : Nat) : List (Nat × WSClient) :=
  m.filter (fun p => decide (p.1 ≠ id))

/-- Go `m[id] = v`. -/
def mapSet (m : List (Nat × WSClient)) (id : Nat) (v : WSClient) :
    List (Nat × WSClient) :=
  (id, v) :: mapDelete m id

/-- The keys of the registry map. -/
def mapKeys (m : List (Nat × WSClient)) : List Nat := m.map Prod.fst

/-- Append effects to the trace. -/
def World.emit (w : World) (es : List Effect) : World :=
  { w with trace := w.trace ++ es }

/-- A service state with an empty registry and nothing traced yet. -/
def emptyWorld : World :=
  { seed := 0, mapClient := [], initClientId := 0, process := 0, trace := [] }

/-- A service state whose registry holds client 11 on connection 1 and client
12 on connection 2. -/
def sampleWorld : World :=
  { seed := 2, initClientId := 2, process := 0, trace := [],
    mapClient := [(12, { id := 12, wsConn := some 2 }), (11, { id := 11, wsConn := some 1 })] }

/-- A processor that decodes every non-empty frame to its bytes and encodes
byte values only, on node 3, with a transport whose writes succeed. -/
def sampleEnv : Env :=
  { nodeId := 3,
    Unmarshal := fun _ b => if b = [] then .error "empty frame" else .ok (.bytes b),
    Marshal := fun _ m =>
      match m with
      | .bytes b => .ok b
      | _ => .error "cannot encode",
    WriteMsg := fun _ _ => none }

/-! ## Registry operations -/

/-- Source: the `for` loop of `WSService.NewWSClient`; every iteration takes
the next clock reading for its `genId` call. A panic of `genId` runs the
deferred `Unlock`. -/
def NewWSClient.loop (env : Env) (conn : Option Nat) :
    List Nat → World → Outcome WSClient × World × List Nat
  | [], w => (.running, w, [])
  | now :: clock, w =>
    let w1 := { w with initClientId := (w.initClientId + 1) % 2 ^ 64 }
    let g := genId env.nodeId now w1.seed
    match g.id with
    | none => (.panicked, ({ w1 with seed := g.seed }).emit [.Unlock], clock)
    | some clientId =>
      let w2 := ({ w1 with seed := g.seed }).emit [.MapGet clientId]
      match mapGet w2.mapClient clientId with
      | some _ => NewWSClient.loop env conn clock w2
      | none =>
        let pClient : WSClient := { id := clientId, wsConn := conn }
        (.returned pClient,
          ({ w2 with mapClient := mapSet w2.mapClient clientId pClient }).emit
            [.MapSet clientId, .Unlock],
          clock)

/-- Source: `WSService.NewWSClient`. `clock` lists the readings of
`time.Now()` still to come; the unused ones are returned. -/
def NewWSClient (env : Env) (conn : Option Nat) (clock : List Nat) (w : World) :
    Outcome WSClient × World × List Nat :=
  NewWSClient.loop env conn clock (w.emit [.Lock])

/-- Successive `NewWSClient` calls, one for each connection of `conns`, with
nothing in between; `none` when one of them does not return. -/
def newClients (env : Env) :
    List (Option Nat) → List Nat → World → Option (List WSClient × World × List Nat)
  | [], clock, w => some ([], w, clock)
  | conn :: conns, clock, w =>
    match NewWSClient env conn clock w with
    | (.returned c, w1, clock1) =>
      match newClients env conns clock1 w1 with
      | some (cs, w2, clock2) => some (c :: cs, w2, clock2)
      | none => none
    | _ => none

/-- Source: `WSService.GetConnNum`. -/
def GetConnNum (w : World) : Int × World :=
  ((w.mapClient.length : Int), w.emit [.MapLen])

/-- Source: `WSClient.GetId`. -/
def WSClient.GetId (slf : WSClient) : Nat := slf.id

/-- Source: first statement of `WSClient.OnClose`, the `NotifyEvent` call. -/
def OnClose.notify (slf : WSClient) (w : World) : World :=
  w.emit [.NotifyEvent
    { ClientId := slf.id, Typ := WPT_DisConnected, MsgProcessor := w.process, Data := .nil }]

/-- Source: rest of `WSClient.OnClose`, the locked `delete`. -/
def OnClose.remove (slf : WSClient) (w : World) : World :=
  ({ w with mapClient := mapDelete w.mapClient slf.GetId }).emit
    [.Lock, .MapDelete slf.GetId, .Unlock]

/-- Source: `WSClient.OnClose`. -/
def OnClose (slf : WSClient) (w : World) : World :=
  OnClose.remove slf (OnClose.notify slf w)

/-- Source: `WSService.Close`. -/
def Close (clientid : Nat) (w : World) : World :=
  let w1 := w.emit [.Lock, .MapGet clientid]
  match mapGet w.mapClient clientid with
  | none => w1.emit [.Unlock]
  | some client =>
    match client.wsConn with
    | some conn => w1.emit [.ConnClose conn, .Unlock]
    | none => w1.emit [.Unlock]

/-- The error `fmt.Errorf("client %d is disconnect!", clientid)`. -/
def disconnectError (clientid : Nat) : String :=
  "client " ++ toString clientid ++ " is disconnect!"

/-- Source: `WSService.SendMsg`; the returned value is the Go `error`
(`none` for nil). A nil `wsConn` makes the transport call panic. -/
def SendMsg (env : Env) (clientid : Nat) (msg : Iface) (w : World) :
    Outcome (Option String) × World :=
  let w1 := w.emit [.Lock, .MapGet clientid]
  match mapGet w.mapClient clientid with
  | none => (.returned (some (disconnectError clientid)), w1.emit [.Unlock])
  | some client =>
    let w2 := w1.emit [.Unlock, .Marshal clientid msg]
    match env.Marshal clientid msg with
    | .error err => (.returned (some err), w2)
    | .ok bytes =>
      match client.wsConn with
      | none => (.panicked, w2)
      | some conn =>
        (.returned (env.WriteMsg conn bytes),
          w2.emit [.SetWriteDeadline conn deadline, .WriteMsg conn bytes])

/-! ## The read loop -/

/-- Source: the `for` loop of `WSClient.Read` on the connection `conn`.
`script` lists the results of the `ReadMsg` calls still to come (an error or
a frame); the unused ones are returned. -/
def Read.loop (env : Env) (slf : WSClient) (conn : Nat) :
    List (Except String (List Nat)) → World →
      Outcome Unit × World × List (Except String (List Nat))
  | [], w => (.running, w, [])
  | r :: script, w =>
    let w1 := w.emit
      [.SetReadDeadline conn deadline, .SetWriteDeadline conn deadline, .ReadMsg conn]
    match r with
    | .error _ => (.returned (), w1, script)
    | .ok bytes =>
      let w2 := w1.emit [.Unmarshal slf.id bytes]
      match env.Unmarshal slf.id bytes with
      | .error _ =>
        Read.loop env slf conn script (w2.emit [.NotifyEvent
          { ClientId := slf.id, Typ := WPT_UnknownPack, Data := .bytes bytes,
            MsgProcessor := w.process }])
      | .ok data =>
        Read.loop env slf conn script (w2.emit [.NotifyEvent
          { ClientId := slf.id, Typ := WPT_Pack, Data := data,
            MsgProcessor := w.process }])

/-- Source: `WSClient.Read`. A nil `wsConn` makes the first transport call
panic. -/
def Read (env : Env) (slf : WSClient) (script : List (Except String (List Nat)))
    (w : World) : Outcome Unit × World × List (Except String (List Nat)) :=
  let w0 := w.emit [.NotifyEvent
    { ClientId := slf.id, Typ := WPT_Connected, MsgProcessor := w.process, Data := .nil }]
  match slf.wsConn with
  | none => (.panicked, w0, script)
  | some conn => Read.loop env slf conn script w0

/-- Source: `WSClient.Run`. -/
def Run (env : Env) (slf : WSClient) (script : List (Except String (List Nat)))
    (w : World) : Outcome Unit × World × List (Except String (List Nat)) :=
  Read env slf script w

/-- The pack a session is expected to emit for an inbound frame: `WPT_Pack`
with the decoded payload when `Unmarshal` succeeds, `WPT_UnknownPack` with
the raw bytes when it fails. -/
def expectedPack (env : Env) (slf : WSClient) (process : Nat) (bytes : List Nat) : WSPack :=
  match env.Unmarshal slf.id bytes with
  | .ok data => { Typ := WPT_Pack, MsgProcessor := process, ClientId := slf.id, Data := data }
  | .error _ =>
    { Typ := WPT_UnknownPack, MsgProcessor := process, ClientId := slf.id, Data := .bytes bytes }

/-! ## The event dispatcher -/

/-- A call of one of the processor's routing callbacks, on the processor
`processor`. -/
inductive RouteCall
  | ConnectedRoute (processor : Nat) (clientId : Nat)
  | DisConnectedRoute (processor : Nat) (clientId : Nat)
  | UnknownMsgRoute (processor : Nat) (clientId : Nat) (data : Iface)
  | MsgRoute (processor : Nat) (clientId : Nat) (data : Iface)
  deriving DecidableEq

/-- Source: `WSService.WSEventHandler`, applied to the `*WSPack` the event
carries; the result lists the callbacks it invoked. The `switch` has no
default case. -/
def WSEventHandler (pack : WSPack) : List RouteCall :=
  if pack.Typ = WPT_Connected then
    [.ConnectedRoute pack.MsgProcessor pack.ClientId]
  else if pack.Typ = WPT_DisConnected then
    [.DisConnectedRoute pack.MsgProcessor pack.ClientId]
  else if pack.Typ = WPT_UnknownPack then
    [.UnknownMsgRoute pack.MsgProcessor pack.ClientId pack.Data]
  else if pack.Typ = WPT_Pack then
    [.MsgRoute pack.MsgProcessor pack.ClientId pack.Data]
  else
    []

/-- The callbacks invoked when the handler is called on each pack of a
sequence in turn. -/
def handleAll : List WSPack → List RouteCall
  | [] => []
  | pack :: packs => WSEventHandler pack ++ handleAll packs

/-! ## Projections of a trace -/

/-- The packs handed to `NotifyEvent`, in order. -/
def notified : List Effect → List WSPack
  | [] => []
  | .NotifyEvent p :: es => p :: notified es
  | _ :: es => notified es

/-- The `WriteMsg` calls (connection and bytes), in order. -/
def written : List Effect → List (Nat × List Nat)
  | [] => []
  | .WriteMsg c b :: es => (c, b) :: written es
  | _ :: es => written es

/-- The `Marshal` calls, in order. -/
def marshalled : List Effect → List (Nat × Iface)
  | [] => []
  | .Marshal c m :: es => (c, m) :: marshalled es
  | _ :: es => marshalled es

/-- The connections whose transport `Close` was requested, in order. -/
def closed : List Effect → List Nat
  | [] => []
  | .ConnClose c :: es => c :: closed es
  | _ :: es => closed es

/-! ## Start-up -/

/-- Source: `Default_WS_MaxConnNum = 3000`. -/
def Default_WS_MaxConnNum : Int := 3000

/-- Source: `Default_WS_PendingWriteNum = 10000`. -/
def Default_WS_PendingWriteNum : Int := 10000

/-- Source: `Default_WS_MaxMsgLen = 65535`. -/
def Default_WS_MaxMsgLen : Nat := 65535

/-- A value of the configuration map (`interface{}`): a string, a number (a
finite `float64`, given as the rational number it denotes), or a value of any
other dynamic type. -/
inductive CfgValue
  | str (s : String)
  | number (v : ℚ)
  | other
  deriving DecidableEq

/-- What `ws.GetServiceCfg()` returns: nil, a `map[string]interface{}`, or a
value of any other dynamic type. -/
inductive ServiceCfg
  | nil
  | map (wsCfg : List (String × CfgValue))
  | other
  deriving DecidableEq

/-- Go `v, ok := wsCfg[key]`. -/
def cfgGet : List (String × CfgValue) → String → Option CfgValue
  | [], _ => none
  | (k, v) :: m, key => if k = key then some v else cfgGet m key

/-- The lookup `v, ok := wsCfg[key]` followed, when `ok`, by the type
assertion `v.(float64)`: `none` when the assertion panics, `some none` when
the key is absent. -/
def cfgFloat (wsCfg : List (String × CfgValue)) (key : String) : Option (Option ℚ) :=
  match cfgGet wsCfg key with
  | none => some none
  | some (.number v) => some (some v)
  | some _ => none

/-- Whether the key is absent from the configuration or holds a number, so
that the type assertion `.(float64)` on it does not panic. -/
def numberOrAbsent (wsCfg : List (String × CfgValue)) (key : String) : Bool :=
  (cfgFloat wsCfg key).isSome

/-- The `int` (64 bits wide) with the two's-complement bit pattern `bits`. -/
def toInt64 (bits : Nat) : Int :=
  if bits % 2 ^ 64 < 2 ^ 63 then ((bits % 2 ^ 64 : Nat) : Int)
  else ((bits % 2 ^ 64 : Nat) : Int) - 2 ^ 64

/-- Go's conversion of a floating-point number to an integer discards the
fraction: truncation towards zero. -/
def truncate (v : ℚ) : Int := Int.tdiv v.num v.den

/-- Go `int(f)` for the `float64` value `v`: `v` truncated towards zero when
that fits an `int`; otherwise Go leaves the result to the implementation,
which `impl` stands for. -/
def floatToInt (impl : ℚ → Nat) (v : ℚ) : Int :=
  if -(2 ^ 63) ≤ truncate v ∧ truncate v < 2 ^ 63 then truncate v else toInt64 (impl v)

/-- Go `uint32(f)` for the `float64` value `v`: `v` truncated towards zero
when that fits a `uint32`; otherwise Go leaves the result to the
implementation, which `impl` stands for. -/
def floatToUint32 (impl : ℚ → Nat) (v : ℚ) : Nat :=
  if 0 ≤ truncate v ∧ truncate v < 2 ^ 32 then (truncate v).toNat else impl v % 2 ^ 32

/-- The error `fmt.Errorf("%s service config is error!", ws.GetName())`. -/
def configError (name : String) : String := name ++ " service config is error!"

/-- Source: `WSService.OnInit`, for the service name `name` and the
configuration `iConfig` returned by `ws.GetServiceCfg()`; the returned value
is the Go `error` (`none` for nil). A failed type assertion panics, with the
assignments made so far in place. -/
def OnInit (impl : ℚ → Nat) (name : String) (iConfig : ServiceCfg) (w : World) :
    Outcome (Option String) × World :=
  match iConfig with
  | .nil => (.returned (some (configError name)), w)
  | .other => (.panicked, w)
  | .map wsCfg =>
    match cfgGet wsCfg "ListenAddr" with
    | none => (.returned (some (configError name)), w)
    | some (.str addr) =>
      let s0 : WSServer :=
        { w.wsServer with
          Addr := addr, MaxConnNum := Default_WS_MaxConnNum,
          PendingWriteNum := Default_WS_PendingWriteNum,
          MaxMsgLen := Default_WS_MaxMsgLen }
      match cfgFloat wsCfg "MaxConnNum" with
      | none => (.panicked, { w with wsServer := s0 })
      | some a =>
        let s1 : WSServer :=
          match a with
          | some v => { s0 with MaxConnNum := floatToInt impl v }
          | none => s0
        match cfgFloat wsCfg "PendingWriteNum" with
        | none => (.panicked, { w with wsServer := s1 })
        | some b =>
          let s2 : WSServer :=
            match b with
            | some v => { s1 with PendingWriteNum := floatToInt impl v }
            | none => s1
          match cfgFloat wsCfg "MaxMsgLen" with
          | none => (.panicked, { w with wsServer := s2 })
          | some c =>
            let s3 : WSServer :=
              match c with
              | some v => { s2 with MaxMsgLen := floatToUint32 impl v }
              | none => s2
            (.returned none,
              ({ w with mapClient := [], wsServer := { s3 with NewAgent := true } }).emit
                [.ServerStart])
    | some _ => (.panicked, w)

/-- A configuration that holds only the listen address. -/
def cfgOnlyAddr : List (String × CfgValue) :=
  [("ListenAddr", .str "127.0.0.1:9000")]

/-- A configuration whose `MaxConnNum` is 7 and whose `MaxMsgLen` is
`2 ^ 32`, one more than a `uint32` can hold. -/
def cfgLenOverflow : List (String × CfgValue) :=
  [("ListenAddr", .str "127.0.0.1:9000"), ("MaxConnNum", .number 7),
    ("MaxMsgLen", .number 4294967296)]

/-- A configuration whose `MaxConnNum` is a string, with numbers under the
two later keys. -/
def cfgConnString : List (String × CfgValue) :=
  [("ListenAddr", .str "127.0.0.1:9000"), ("MaxConnNum", .str "x"),
    ("PendingWriteNum", .number 9), ("MaxMsgLen", .number 5)]

/-- A configuration whose `PendingWriteNum` is a string, with numbers under
the other two keys. -/
def cfgPendingString : List (String × CfgValue) :=
  [("ListenAddr", .str "127.0.0.1:9000"), ("MaxConnNum", .number 8),
    ("PendingWriteNum", .str "x"), ("MaxMsgLen", .number 5)]

/-- A configuration whose `MaxConnNum` is the number one half. -/
def cfgConnHalf : List (String × CfgValue) :=
  [("ListenAddr", .str "127.0.0.1:9000"), ("MaxConnNum", .number (1 / 2))]

/-- A configuration whose `MaxConnNum` is `2 ^ 63`, one more than an `int`
can hold. -/
def cfgConnOverflow : List (String × CfgValue) :=
  [("ListenAddr", .str "127.0.0.1:9000"), ("MaxConnNum", .number 9223372036854775808)]

/-- A configuration whose three numeric keys hold integers that fit their
fields. -/
def cfgAllSet : List (String × CfgValue) :=
  [("ListenAddr", .str "0.0.0.0:80"), ("MaxConnNum", .number 7),
    ("PendingWriteNum", .number (-1)), ("MaxMsgLen", .number 1024)]

/-! ## Lock discipline -/

/-- Whether a trace keeps the discipline of `mapClientLocker`, given whether
the lock is held at its start: the lock is taken only when free and released
only when held, every access to the registry map happens while it is held,
and it is free at the end. -/
def lockedOk : Bool → List Effect → Bool
  | held, [] => !held
  | held, .Lock :: es => !held && lockedOk true es
  | held, .Unlock :: es => held && lockedOk false es
  | held, .MapGet _ :: es => held && lockedOk held es
  | held, .MapSet _ :: es => held && lockedOk held es
  | held, .MapDelete _ :: es => held && lockedOk held es
  | held, .MapLen :: es => held && lockedOk held es
  | held, _ :: es => lockedOk held es

/-! ## The mint-and-retry sequence -/

/-- The identifiers successive `genId` calls return, one call for each clock
reading of the list, starting with the counter at `seed`; the list ends where
a call panics. -/
def triedIds (nodeId : Int) : List Nat → Nat → List Nat
  | [], _ => []
  | now :: clock, seed =>
    match (genId nodeId now seed).id with
    | none => []
    | some id => id :: triedIds nodeId clock (genId nodeId now seed).seed

/-- A service state on node 3 whose registry already holds the identifier the
next `genId` call returns in second 5 of a minute. -/
def collidingWorld : World :=
  { seed := 0, initClientId := 1, process := 0, trace := [],
    mapClient := [(54043195549417473, { id := 54043195549417473, wsConn := some 7 })] }

/-! ## Basic facts about the packing -/

theorem MaxNodeId_eq : MaxNodeId = 1023 := by decide

theorem MaxSeed_eq : MaxSeed = 4194303 := by decide

theorem toUint64_of_valid (n : Nat) (h : n ≤ 1023) : toUint64 (n : Int) = n := by
  unfold toUint64
  have h1 : ((n : Int) % (2 ^ 64 : Int)) = (n : Int) := by
    apply Int.emod_eq_of_lt
    · exact Int.natCast_nonneg n
    · have : (n : Int) ≤ 1023 := by exact_mod_cast h
      omega
  rw [h1]
  exact Int.toNat_natCast n

/-- With disjoint fields the bitwise `or` of `genId` is a sum. -/
theorem pack_eq_sum (n s c : Nat) (hs : s < 2 ^ 32) (hc : c < 2 ^ 22) :
    (n <<< 54) ||| (s <<< 22) ||| c = n * 2 ^ 54 + s * 2 ^ 22 + c := by
  have e1 : (n <<< 54) ||| (s <<< 22) = 2 ^ 22 * (n * 2 ^ 32 + s) := by
    have h1 : n <<< 54 = 2 ^ 54 * n := by rw [Nat.shiftLeft_eq, Nat.mul_comm]
    have h2 : s <<< 22 < 2 ^ 54 := by rw [Nat.shiftLeft_eq]; omega
    rw [h1, ← Nat.mul_add_lt_is_or h2, Nat.shiftLeft_eq]
    omega
  rw [e1, ← Nat.mul_add_lt_is_or hc]
  omega

/-- Closed form of a successful `genId` call. -/
theorem genId_valid (n now seed : Nat) (hn : n ≤ 1023) :
    genId (n : Int) now seed =
      { id := some (n * 2 ^ 54 + Second now * 2 ^ 22 + ((seed + 1) % 2 ^ 32) % MaxSeed),
        seed := ((seed + 1) % 2 ^ 32) % MaxSeed } := by
  have hs : Second now < 60 := Nat.mod_lt _ (by decide)
  have hc : ((seed + 1) % 2 ^ 32) % MaxSeed < 4194303 := by
    have := Nat.mod_lt ((seed + 1) % 2 ^ 32) (show 0 < MaxSeed by decide)
    rwa [MaxSeed_eq] at this
  have hguard : ¬ ((n : Int) > (MaxNodeId : Int)) := by
    rw [MaxNodeId_eq]
    have : (n : Int) ≤ 1023 := by exact_mod_cast hn
    omega
  unfold genId
  rw [if_neg hguard]
  simp only [toUint64_of_valid n hn]
  have m1 : (n <<< 54) % 2 ^ 64 = n <<< 54 := by
    apply Nat.mod_eq_of_lt
    rw [Nat.shiftLeft_eq]; omega
  have m2 : (Second now <<< 22) % 2 ^ 64 = Second now <<< 22 := by
    apply Nat.mod_eq_of_lt
    rw [Nat.shiftLeft_eq]; omega
  rw [m1, m2, pack_eq_sum n (Second now) _ (by omega) (by omega)]

/-- The seed a successful `genId` call leaves is below `MaxSeed`. -/
theorem genId_seed_lt (n now seed : Nat) (hn : n ≤ 1023) :
    (genId (n : Int) now seed).seed < MaxSeed := by
  rw [genId_valid n now seed hn]
  exact Nat.mod_lt _ (by decide)

/-- Closed form of the counter after `k` calls from `0`. -/
theorem seedAfter_zero (n : Nat) (hn : n ≤ 1023) (clock : Nat → Nat) (k : Nat) :
    seedAfter (n : Int) clock 0 k = k % MaxSeed := by
  induction k with
  | zero => simp [seedAfter]
  | succ k ih =>
    simp only [seedAfter, genId_valid n _ _ hn, ih, MaxSeed_eq]
    omega

/-- Closed form of the identifier returned by call `k` of a run that starts
with the counter at `0`. -/
theorem nthId_zero (n : Int) (clock : Nat → Nat) (k : Nat) (h0 : 0 ≤ n) (h1 : n ≤ 1023) :
    nthId n clock 0 k =
      some (n.toNat * 2 ^ 54 + clock k % 60 * 2 ^ 22 + (k % 4194303 + 1) % 4194303) := by
  obtain ⟨m, rfl⟩ := Int.eq_ofNat_of_zero_le h0
  have hm : m ≤ 1023 := by exact_mod_cast h1
  have hk : (k % 4194303 + 1) % 2 ^ 32 = k % 4194303 + 1 := by omega
  simp only [nthId, seedAfter_zero m hm, genId_valid m _ _ hm, MaxSeed_eq, Second,
    Int.toNat_ofNat, hk]

/-- When two calls of a run that starts with the counter at `0` return the
same identifier: exactly when they read the same second of the minute and
their call numbers agree modulo `2 ^ 22 - 1`. -/
theorem nthId_eq_iff (n : Int) (clock : Nat → Nat) (i j : Nat) (h0 : 0 ≤ n)
    (h1 : n ≤ 1023) :
    nthId n clock 0 i = nthId n clock 0 j ↔
      clock i % 60 = clock j % 60 ∧ i % 4194303 = j % 4194303 := by
  rw [nthId_zero n clock i h0 h1, nthId_zero n clock j h0 h1, Option.some.injEq]
  generalize n.toNat = m
  constructor
  · intro h
    omega
  · rintro ⟨ha, hb⟩
    rw [ha, hb]

/-! ## Identifier claims -/

/-- C1: for every node identity `n` with `0 ≤ n ≤ 1023`, every clock reading
and every prior value of the counter, `genId` returns an identifier and
`GetNodeId` of it, which is its right shift by 54 bits, equals `n`. -/
theorem GetNodeId_genId (n : Int) (now seed : Nat) (h0 : 0 ≤ n) (h1 : n ≤ 1023) :
    ∃ id, (genId n now seed).id = some id ∧ GetNodeId id = n ∧
      ((id >>> 54 : Nat) : Int) = n := by
  obtain ⟨m, rfl⟩ := Int.eq_ofNat_of_zero_le h0
  have hm : m ≤ 1023 := by exact_mod_cast h1
  have hs : Second now < 60 := Nat.mod_lt _ (by decide)
  have hc : ((seed + 1) % 2 ^ 32) % MaxSeed < 4194303 := by
    have := Nat.mod_lt ((seed + 1) % 2 ^ 32) (show 0 < MaxSeed by decide)
    rwa [MaxSeed_eq] at this
  refine ⟨_, by rw [genId_valid m now seed hm], ?_, ?_⟩
  · unfold GetNodeId
    rw [Nat.shiftRight_eq_div_pow]
    have : (m * 2 ^ 54 + Second now * 2 ^ 22 + (seed + 1) % 2 ^ 32 % MaxSeed) % 2 ^ 64
        / 2 ^ 54 = m := by omega
    rw [this]
  · rw [Nat.shiftRight_eq_div_pow]
    have : (m * 2 ^ 54 + Second now * 2 ^ 22 + (seed + 1) % 2 ^ 32 % MaxSeed)
        / 2 ^ 54 = m := by omega
    rw [this]

/-- C1 at node 5, clock reading 1730714400, counter 9. -/
theorem GetNodeId_genId_witness :
    ∃ id, (genId 5 1730714400 9).id = some id ∧ GetNodeId id = 5 ∧
      ((id >>> 54 : Nat) : Int) = 5 :=
  GetNodeId_genId 5 1730714400 9 (by decide) (by decide)

/-- C5: at one `genId` call per second on node 1 (call `k` at second `k`,
counter starting at 0), call 0 and call 83886060 return the same identifier
although they are minted 83886060 seconds apart and no second sees more than
one call. -/
theorem nthId_collision :
    nthId 1 (fun k => k) 0 0 = some 18014398509481985 ∧
      nthId 1 (fun k => k) 0 83886060 = some 18014398509481985 :=
  ⟨(nthId_zero 1 (fun k => k) 0 (by decide) (by decide)).trans (by decide),
    (nthId_zero 1 (fun k => k) 83886060 (by decide) (by decide)).trans (by decide)⟩

/-- C6: from the counter value `2 ^ 22 - 2 = 4194302` a `genId` call leaves
the counter at `0`, not at `(4194302 + 1) mod 2 ^ 22 = 4194303`: the code
reduces modulo `MaxSeed = 2 ^ 22 - 1`. -/
theorem genId_seed_wrap :
    (genId 0 0 4194302).seed = 0 ∧ (genId 0 0 4194302).id = some 0 ∧
      (4194302 + 1) % 2 ^ 22 = 4194303 := by
  decide

/-- C7: for a node identity `n ≥ 1024` `genId` panics, returning no
identifier and leaving the counter as it was; for `0 ≤ n ≤ 1023` it does not
panic. -/
theorem genId_panic_iff (n : Int) (now seed : Nat) :
    (1024 ≤ n → genId n now seed = { id := none, seed := seed }) ∧
      (0 ≤ n → n ≤ 1023 → ∃ id, (genId n now seed).id = some id) := by
  constructor
  · intro h
    unfold genId
    rw [if_pos (by rw [MaxNodeId_eq]; omega)]
  · intro h0 h1
    obtain ⟨m, rfl⟩ := Int.eq_ofNat_of_zero_le h0
    have hm : m ≤ 1023 := by exact_mod_cast h1
    exact ⟨_, by rw [genId_valid m now seed hm]⟩

/-- C7 at node identities 1024 and 1023. -/
theorem genId_panic_iff_witness :
    genId 1024 30 8 = { id := none, seed := 8 } ∧
      ∃ id, (genId 1023 30 8).id = some id :=
  ⟨(genId_panic_iff 1024 30 8).1 (by decide),
    (genId_panic_iff 1023 30 8).2 (by decide) (by decide)⟩

/-! ## Facts about the registry map -/

theorem mapGet_eq_none_iff (m : List (Nat × WSClient)) (id : Nat) :
    mapGet m id = none ↔ id ∉ mapKeys m := by
  induction m with
  | nil => simp [mapGet, mapKeys]
  | cons p m ih =>
    obtain ⟨k, v⟩ := p
    by_cases hk : k = id
    · simp [mapGet, mapKeys, hk]
    · have hk2 : ¬ id = k := fun h => hk h.symm
      simp only [mapGet, if_neg hk, ih]
      simp [mapKeys, hk2]

theorem mapGet_mapDelete_self (m : List (Nat × WSClient)) (id : Nat) :
    mapGet (mapDelete m id) id = none := by
  rw [mapGet_eq_none_iff]
  simp [mapKeys, mapDelete]

theorem mapDelete_of_absent (m : List (Nat × WSClient)) (id : Nat)
    (h : mapGet m id = none) : mapDelete m id = m := by
  rw [mapGet_eq_none_iff] at h
  unfold mapDelete
  rw [List.filter_eq_self]
  intro p hp
  have : p.1 ≠ id := by
    intro e
    exact h (by rw [← e]; exact List.mem_map_of_mem Prod.fst hp)
  simpa using this

theorem mapDelete_cons (k : Nat) (v : WSClient) (m : List (Nat × WSClient)) (id : Nat) :
    mapDelete ((k, v) :: m) id =
      if k = id then mapDelete m id else (k, v) :: mapDelete m id := by
  by_cases hk : k = id <;> simp [mapDelete, List.filter_cons, hk]

theorem mapGet_mapDelete_of_ne (m : List (Nat × WSClient)) (id other : Nat)
    (h : other ≠ id) : mapGet (mapDelete m id) other = mapGet m other := by
  induction m with
  | nil => simp [mapGet, mapDelete]
  | cons p m ih =>
    obtain ⟨k, v⟩ := p
    rw [mapDelete_cons]
    by_cases hk : k = id
    · have hko : ¬ k = other := fun e => h (e.symm.trans hk)
      rw [if_pos hk, ih]
      simp only [mapGet, if_neg hko]
    · rw [if_neg hk]
      by_cases hko : k = other
      · simp only [mapGet, if_pos hko]
      · simp only [mapGet, if_neg hko, ih]

/-! ## Facts about trace projections -/

theorem notified_append (xs ys : List Effect) :
    notified (xs ++ ys) = notified xs ++ notified ys := by
  induction xs with
  | nil => rfl
  | cons e es ih => cases e <;> simp [notified, ih]

theorem written_append (xs ys : List Effect) :
    written (xs ++ ys) = written xs ++ written ys := by
  induction xs with
  | nil => rfl
  | cons e es ih => cases e <;> simp [written, ih]

theorem marshalled_append (xs ys : List Effect) :
    marshalled (xs ++ ys) = marshalled xs ++ marshalled ys := by
  induction xs with
  | nil => rfl
  | cons e es ih => cases e <;> simp [marshalled, ih]

theorem closed_append (xs ys : List Effect) :
    closed (xs ++ ys) = closed xs ++ closed ys := by
  induction xs with
  | nil => rfl
  | cons e es ih => cases e <;> simp [closed, ih]

theorem OnClose_mapClient (slf : WSClient) (v : World) :
    (OnClose slf v).mapClient = mapDelete v.mapClient slf.id := by
  simp [OnClose, OnClose.remove, OnClose.notify, World.emit, WSClient.GetId]

theorem OnClose_notified (slf : WSClient) (v : World) :
    notified (OnClose slf v).trace =
      notified v.trace ++
        [{ Typ := WPT_DisConnected, MsgProcessor := v.process, ClientId := slf.id,
           Data := .nil }] := by
  simp [OnClose, OnClose.remove, OnClose.notify, World.emit, notified_append, notified]

/-! ## Registry claims -/

/-- C8: after `OnClose` for a client the lookup of its id is absent; when the
id is already absent `OnClose` leaves the registry map exactly as it was; and
`OnClose` twice leaves the same map as `OnClose` once. `OnClose` has no error
result. -/
theorem OnClose_remove (slf : WSClient) (w : World) :
    mapGet (OnClose slf w).mapClient slf.id = none ∧
      (mapGet w.mapClient slf.id = none → (OnClose slf w).mapClient = w.mapClient) ∧
      (OnClose slf (OnClose slf w)).mapClient = (OnClose slf w).mapClient := by
  have e := OnClose_mapClient slf
  refine ⟨?_, ?_, ?_⟩
  · rw [e]; exact mapGet_mapDelete_self _ _
  · intro h; rw [e]; exact mapDelete_of_absent _ _ h
  · rw [e (OnClose slf w), e w]
    exact mapDelete_of_absent _ _ (mapGet_mapDelete_self _ _)

/-- C8 on the sample registry, closing client 11 twice. -/
theorem OnClose_remove_witness :
    mapGet (OnClose { id := 11, wsConn := some 1 } sampleWorld).mapClient 11 = none ∧
      (OnClose { id := 11, wsConn := some 1 }
          (OnClose { id := 11, wsConn := some 1 } sampleWorld)).mapClient =
        [(12, { id := 12, wsConn := some 2 })] :=
  ⟨(OnClose_remove { id := 11, wsConn := some 1 } sampleWorld).1,
    (OnClose_remove { id := 11, wsConn := some 1 } sampleWorld).2.2.trans (by decide)⟩

/-- C10: `Close` leaves the registry map (and the counter) unchanged. When
the id is absent its only effects are the lock, the lookup and the unlock;
when the id is present with a transport connection it requests the close of
that connection exactly once and the entry is still in the registry. -/
theorem Close_frame (clientid : Nat) (w : World) :
    (Close clientid w).mapClient = w.mapClient ∧
      (Close clientid w).seed = w.seed ∧
      (Close clientid w).initClientId = w.initClientId ∧
      (mapGet w.mapClient clientid = none →
        (Close clientid w).trace = w.trace ++ [.Lock, .MapGet clientid, .Unlock]) ∧
      (∀ client conn, mapGet w.mapClient clientid = some client →
        client.wsConn = some conn →
        (Close clientid w).trace =
            w.trace ++ [.Lock, .MapGet clientid, .ConnClose conn, .Unlock] ∧
          closed (Close clientid w).trace = closed w.trace ++ [conn] ∧
          mapGet (Close clientid w).mapClient clientid = some client) := by
  refine ⟨?_, ?_, ?_, ?_, ?_⟩
  · unfold Close
    cases h : mapGet w.mapClient clientid with
    | none => simp [World.emit]
    | some client => cases hc : client.wsConn <;> simp [World.emit, hc]
  · unfold Close
    cases h : mapGet w.mapClient clientid with
    | none => simp [World.emit]
    | some client => cases hc : client.wsConn <;> simp [World.emit, hc]
  · unfold Close
    cases h : mapGet w.mapClient clientid with
    | none => simp [World.emit]
    | some client => cases hc : client.wsConn <;> simp [World.emit, hc]
  · intro h
    simp [Close, h, World.emit]
  · intro client conn h hc
    simp [Close, h, hc, World.emit, closed_append, closed]

/-- C10 on the sample registry: closing client 11 requests one transport
close of connection 1 and keeps the entry. -/
theorem Close_frame_witness :
    (Close 11 sampleWorld).trace = [.Lock, .MapGet 11, .ConnClose 1, .Unlock] ∧
      closed (Close 11 sampleWorld).trace = [1] ∧
      mapGet (Close 11 sampleWorld).mapClient 11 = some { id := 11, wsConn := some 1 } :=
  (Close_frame 11 sampleWorld).2.2.2.2 { id := 11, wsConn := some 1 } 1
    (by decide) (by decide)

/-! ## Dispatcher claim -/

/-- C9, as stated, fails: a pack whose type is `4`, a value of `WSPackType`
that is none of the four declared constants, makes `WSEventHandler` invoke no
callback at all. -/
theorem WSEventHandler_undeclared_type :
    WSEventHandler { Typ := 4, MsgProcessor := 0, ClientId := 1, Data := .bytes [7] } = [] := by
  decide

/-- C9, amended: for a pack whose type is one of the four declared pack types
`WSEventHandler` invokes exactly one callback of the pack's own processor,
chosen by the type alone (Connected, DisConnected, UnknownPack, Pack go to
ConnectedRoute, DisConnectedRoute, UnknownMsgRoute, MsgRoute), passing the
pack's client id and data unchanged; for any other type it invokes none. The
handler keeps no state, so the callbacks for a sequence of packs are those of
the single packs, in the order of the packs. -/
theorem WSEventHandler_dispatch (pack : WSPack) (packs more : List WSPack) :
    (pack.Typ = WPT_Connected →
        WSEventHandler pack = [.ConnectedRoute pack.MsgProcessor pack.ClientId]) ∧
      (pack.Typ = WPT_DisConnected →
        WSEventHandler pack = [.DisConnectedRoute pack.MsgProcessor pack.ClientId]) ∧
      (pack.Typ = WPT_UnknownPack →
        WSEventHandler pack = [.UnknownMsgRoute pack.MsgProcessor pack.ClientId pack.Data]) ∧
      (pack.Typ = WPT_Pack →
        WSEventHandler pack = [.MsgRoute pack.MsgProcessor pack.ClientId pack.Data]) ∧
      (pack.Typ ≠ WPT_Connected → pack.Typ ≠ WPT_DisConnected →
        pack.Typ ≠ WPT_UnknownPack → pack.Typ ≠ WPT_Pack → WSEventHandler pack = []) ∧
      handleAll (pack :: packs) = WSEventHandler pack ++ handleAll packs ∧
      handleAll (packs ++ more) = handleAll packs ++ handleAll more := by
  refine ⟨?_, ?_, ?_, ?_, ?_, rfl, ?_⟩
  · intro h
    simp [WSEventHandler, h]
  · intro h
    simp [WSEventHandler, h, WPT_DisConnected, WPT_Connected]
  · intro h
    simp [WSEventHandler, h, WPT_UnknownPack, WPT_DisConnected, WPT_Connected]
  · intro h
    simp [WSEventHandler, h, WPT_Pack, WPT_UnknownPack, WPT_DisConnected, WPT_Connected]
  · intro h0 h1 h3 h2
    simp [WSEventHandler, h0, h1, h2, h3]
  · induction packs with
    | nil => simp [handleAll]
    | cons q qs ih => simp [handleAll, ih]

/-- C9, amended, on a Pack event followed by a DisConnected event. -/
theorem WSEventHandler_dispatch_witness :
    WSEventHandler { Typ := 2, MsgProcessor := 5, ClientId := 9, Data := .value 3 } =
        [.MsgRoute 5 9 (.value 3)] ∧
      handleAll ([{ Typ := 2, MsgProcessor := 5, ClientId := 9, Data := .value 3 }] ++
          [{ Typ := 1, MsgProcessor := 5, ClientId := 9, Data := .nil }]) =
        [.MsgRoute 5 9 (.value 3), .DisConnectedRoute 5 9] :=
  ⟨(WSEventHandler_dispatch { Typ := 2, MsgProcessor := 5, ClientId := 9, Data := .value 3 }
      [] []).2.2.2.1 (by decide),
    ((WSEventHandler_dispatch { Typ := 2, MsgProcessor := 5, ClientId := 9, Data := .value 3 }
      [{ Typ := 2, MsgProcessor := 5, ClientId := 9, Data := .value 3 }]
      [{ Typ := 1, MsgProcessor := 5, ClientId := 9, Data := .nil }]).2.2.2.2.2.2).trans
      (by decide)⟩

/-! ## Send claim -/

/-- C4: when the id is absent from the registry (in particular when the
registry is empty, or the id was just removed by `OnClose`) `SendMsg` returns
the disconnect error and makes no `Marshal` and no `WriteMsg` call; when the
id is present and `Marshal` and the write both succeed, `SendMsg` returns nil
and makes exactly one `WriteMsg` call, with the bytes `Marshal` returned. The
registry map is unchanged in both cases. -/
theorem SendMsg_spec (env : Env) (clientid : Nat) (msg : Iface) (w : World) :
    (mapGet w.mapClient clientid = none →
        SendMsg env clientid msg w =
          (.returned (some (disconnectError clientid)),
            w.emit [.Lock, .MapGet clientid, .Unlock]) ∧
        marshalled (SendMsg env clientid msg w).2.trace = marshalled w.trace ∧
        written (SendMsg env clientid msg w).2.trace = written w.trace) ∧
      (∀ slf : WSClient, slf.id = clientid →
        (SendMsg env clientid msg (OnClose slf w)).1 =
          .returned (some (disconnectError clientid))) ∧
      (∀ client conn bytes, mapGet w.mapClient clientid = some client →
        client.wsConn = some conn → env.Marshal clientid msg = .ok bytes →
        env.WriteMsg conn bytes = none →
        (SendMsg env clientid msg w).1 = .returned none ∧
        (SendMsg env clientid msg w).2.mapClient = w.mapClient ∧
        marshalled (SendMsg env clientid msg w).2.trace =
          marshalled w.trace ++ [(clientid, msg)] ∧
        written (SendMsg env clientid msg w).2.trace = written w.trace ++ [(conn, bytes)]) := by
  have absent : ∀ v : World, mapGet v.mapClient clientid = none →
      SendMsg env clientid msg v =
        (.returned (some (disconnectError clientid)),
          v.emit [.Lock, .MapGet clientid, .Unlock]) := by
    intro v h
    simp [SendMsg, h, World.emit]
  refine ⟨?_, ?_, ?_⟩
  · intro h
    rw [absent w h]
    simp [World.emit, marshalled_append, written_append, marshalled, written]
  · intro slf hid
    have h : mapGet (OnClose slf w).mapClient clientid = none := by
      rw [← hid, OnClose_mapClient]; exact mapGet_mapDelete_self _ _
    rw [absent _ h]
  · intro client conn bytes h hc hm hw
    simp [SendMsg, h, hc, hm, hw, World.emit, marshalled_append, written_append,
      marshalled, written]

/-- C4 on the sample registry: a send to the live client 11 writes the
encoded bytes once on connection 1; a send to the unknown id 99 fails without
encoding or writing. -/
theorem SendMsg_spec_witness :
    ((SendMsg sampleEnv 11 (.bytes [1, 2]) sampleWorld).1 = .returned none ∧
        (SendMsg sampleEnv 11 (.bytes [1, 2]) sampleWorld).2.mapClient =
          sampleWorld.mapClient ∧
        marshalled (SendMsg sampleEnv 11 (.bytes [1, 2]) sampleWorld).2.trace =
          marshalled sampleWorld.trace ++ [(11, .bytes [1, 2])] ∧
        written (SendMsg sampleEnv 11 (.bytes [1, 2]) sampleWorld).2.trace =
          written sampleWorld.trace ++ [(1, [1, 2])]) ∧
      written (SendMsg sampleEnv 99 (.bytes [1, 2]) sampleWorld).2.trace =
        written sampleWorld.trace :=
  ⟨(SendMsg_spec sampleEnv 11 (.bytes [1, 2]) sampleWorld).2.2
      { id := 11, wsConn := some 1 } 1 [1, 2] (by decide) (by decide) rfl rfl,
    ((SendMsg_spec sampleEnv 99 (.bytes [1, 2]) sampleWorld).1 (by decide)).2.2⟩

/-! ## Read loop claim -/

theorem Read_loop_ok (env : Env) (slf : WSClient) (conn : Nat) (f : List Nat)
    (script : List (Except String (List Nat))) (w : World) :
    Read.loop env slf conn (Except.ok f :: script) w =
      Read.loop env slf conn script
        (((w.emit [.SetReadDeadline conn deadline, .SetWriteDeadline conn deadline,
            .ReadMsg conn]).emit [.Unmarshal slf.id f]).emit
          [.NotifyEvent (expectedPack env slf w.process f)]) := by
  simp only [Read.loop, expectedPack]
  cases env.Unmarshal slf.id f <;> rfl

theorem Read_loop_frames (env : Env) (slf : WSClient) (conn : Nat)
    (frames : List (List Nat)) (err : String)
    (rest : List (Except String (List Nat))) (w : World) :
    (Read.loop env slf conn (frames.map Except.ok ++ Except.error err :: rest) w).1 =
        .returned () ∧
      (Read.loop env slf conn (frames.map Except.ok ++ Except.error err :: rest) w).2.2 =
        rest ∧
      notified
          (Read.loop env slf conn (frames.map Except.ok ++ Except.error err :: rest) w).2.1.trace =
        notified w.trace ++ frames.map (expectedPack env slf w.process) ∧
      (Read.loop env slf conn (frames.map Except.ok ++ Except.error err :: rest)
          w).2.1.process = w.process ∧
      (Read.loop env slf conn (frames.map Except.ok ++ Except.error err :: rest)
          w).2.1.mapClient = w.mapClient := by
  induction frames generalizing w with
  | nil =>
    simp [Read.loop, World.emit, notified_append, notified]
  | cons f fs ih =>
    rw [List.map_cons, List.cons_append, Read_loop_ok]
    obtain ⟨h1, h2, h3, h4, h5⟩ := ih (((w.emit
      [.SetReadDeadline conn deadline, .SetWriteDeadline conn deadline,
        .ReadMsg conn]).emit [.Unmarshal slf.id f]).emit
      [.NotifyEvent (expectedPack env slf w.process f)])
    refine ⟨h1, h2, ?_, ?_, ?_⟩
    · rw [h3]
      simp [World.emit, notified_append, notified]
    · rw [h4]; rfl
    · rw [h5]; rfl

/-- C3: for a session with a transport connection whose reads deliver the
frames `frames` and then an error, `Read` returns having consumed exactly
those results, and after the following `OnClose` the packs notified are, in
order: `WPT_Connected`; for each frame in arrival order `WPT_Pack` with the
decoded payload when `Unmarshal` succeeds and `WPT_UnknownPack` with the raw
bytes when it fails; and last one `WPT_DisConnected`; all carry the session
id. A decode failure does not end the loop: every frame up to the read error
gets its pack. -/
theorem Read_OnClose_events (env : Env) (slf : WSClient) (conn : Nat)
    (frames : List (List Nat)) (err : String)
    (rest : List (Except String (List Nat))) (w : World)
    (hconn : slf.wsConn = some conn) :
    (Read env slf (frames.map Except.ok ++ Except.error err :: rest) w).1 = .returned () ∧
      (Read env slf (frames.map Except.ok ++ Except.error err :: rest) w).2.2 = rest ∧
      notified
          (OnClose slf
            (Read env slf (frames.map Except.ok ++ Except.error err :: rest) w).2.1).trace =
        notified w.trace ++
          ({ Typ := WPT_Connected, MsgProcessor := w.process, ClientId := slf.id,
             Data := .nil } ::
            frames.map (expectedPack env slf w.process)) ++
          [{ Typ := WPT_DisConnected, MsgProcessor := w.process, ClientId := slf.id,
             Data := .nil }] := by
  have e : ∀ script, Read env slf script w =
      Read.loop env slf conn script (w.emit [.NotifyEvent
        { ClientId := slf.id, Typ := WPT_Connected, MsgProcessor := w.process,
          Data := .nil }]) := by
    intro script
    simp [Read, hconn]
  obtain ⟨h1, h2, h3, h4, _⟩ := Read_loop_frames env slf conn frames err rest
    (w.emit [.NotifyEvent
      { ClientId := slf.id, Typ := WPT_Connected, MsgProcessor := w.process, Data := .nil }])
  rw [e]
  refine ⟨h1, h2, ?_⟩
  rw [OnClose_notified, h3, h4]
  simp [World.emit, notified_append, notified]

/-- C3 for session 9 on connection 4 with the sample processor: the frames
`[1]`, `[]` (undecodable) and `[2, 3]`, then a read error. -/
theorem Read_OnClose_events_witness :
    notified
        (OnClose { id := 9, wsConn := some 4 }
          (Read sampleEnv { id := 9, wsConn := some 4 }
            ([[1], [], [2, 3]].map Except.ok ++ Except.error "EOF" :: []) emptyWorld).2.1).trace =
      [{ Typ := 0, MsgProcessor := 0, ClientId := 9, Data := .nil },
       { Typ := 2, MsgProcessor := 0, ClientId := 9, Data := .bytes [1] },
       { Typ := 3, MsgProcessor := 0, ClientId := 9, Data := .bytes [] },
       { Typ := 2, MsgProcessor := 0, ClientId := 9, Data := .bytes [2, 3] },
       { Typ := 1, MsgProcessor := 0, ClientId := 9, Data := .nil }] :=
  (Read_OnClose_events sampleEnv { id := 9, wsConn := some 4 } 4 [[1], [], [2, 3]] "EOF" []
    emptyWorld rfl).2.2.trans (by decide)

/-! ## Insertion claim -/

/-- A returning mint-and-retry loop stores the new handle under an id that
was absent, in front of the untouched earlier entries. -/
theorem NewWSClient_loop_returned (env : Env) (conn : Option Nat) (clock : List Nat)
    (w : World) (c : WSClient) (w1 : World) (clock1 : List Nat)
    (h : NewWSClient.loop env conn clock w = (.returned c, w1, clock1)) :
    mapGet w.mapClient c.id = none ∧ w1.mapClient = (c.id, c) :: w.mapClient := by
  induction clock generalizing w with
  | nil => simp [NewWSClient.loop] at h
  | cons now clock ih =>
    simp only [NewWSClient.loop] at h
    cases hg : (genId env.nodeId now w.seed).id with
    | none => simp [hg] at h
    | some clientId =>
      simp only [hg] at h
      cases hm : mapGet w.mapClient clientId with
      | some old =>
        simp only [World.emit, hm] at h
        have := ih _ h
        simpa using this
      | none =>
        simp only [World.emit, hm, Prod.mk.injEq, Outcome.returned.injEq] at h
        obtain ⟨hc, hw, _⟩ := h
        subst hc
        subst hw
        refine ⟨hm, ?_⟩
        simp [mapSet, mapDelete_of_absent _ _ hm]

theorem NewWSClient_returned (env : Env) (conn : Option Nat) (clock : List Nat)
    (w : World) (c : WSClient) (w1 : World) (clock1 : List Nat)
    (h : NewWSClient env conn clock w = (.returned c, w1, clock1)) :
    mapGet w.mapClient c.id = none ∧ w1.mapClient = (c.id, c) :: w.mapClient :=
  NewWSClient_loop_returned env conn clock (w.emit [.Lock]) c w1 clock1 h

/-- After successive returning insertions the registry holds the new handles,
latest first, in front of the entries it had, and the new ids are pairwise
distinct and were absent before. -/
theorem newClients_mapClient (env : Env) (conns : List (Option Nat)) (clock : List Nat)
    (w : World) (hs : List WSClient) (w1 : World) (clock1 : List Nat)
    (h : newClients env conns clock w = some (hs, w1, clock1)) :
    hs.length = conns.length ∧
      w1.mapClient = (hs.map (fun c => (c.id, c))).reverse ++ w.mapClient ∧
      (hs.map WSClient.id).Nodup ∧
      ∀ c ∈ hs, mapGet w.mapClient c.id = none := by
  induction conns generalizing clock w hs with
  | nil =>
    simp only [newClients, Option.some.injEq, Prod.mk.injEq] at h
    obtain ⟨h1, h2, _⟩ := h
    subst h1
    subst h2
    simp
  | cons conn conns ih =>
    simp only [newClients] at h
    split at h
    · rename_i c v clk hnew
      split at h
      · rename_i cs v2 clk2 hrest
        simp only [Option.some.injEq, Prod.mk.injEq] at h
        obtain ⟨h1, h2, h3⟩ := h
        subst h1
        subst h2
        subst h3
        obtain ⟨habs, hmap⟩ := NewWSClient_returned env conn clock w c v clk hnew
        obtain ⟨hlen, hm, hnd, hfresh⟩ := ih clk v cs hrest
        have hne : ∀ d ∈ cs, d.id ≠ c.id := by
          intro d hd e
          have := hfresh d hd
          rw [hmap, e] at this
          simp [mapGet] at this
        refine ⟨by simp [hlen], ?_, ?_, ?_⟩
        · rw [hm, hmap]
          simp
        · rw [List.map_cons, List.nodup_cons]
          refine ⟨?_, hnd⟩
          intro hin
          obtain ⟨d, hd, hde⟩ := List.mem_map.mp hin
          exact hne d hd hde
        · intro d hd
          rcases List.mem_cons.mp hd with rfl | hd
          · exact habs
          · have := hfresh d hd
            rw [hmap] at this
            simp only [mapGet] at this
            split at this
            · simp at this
            · exact this
      · simp at h
    · simp at h

/-- C2: starting from an empty registry, after `N` successive `NewWSClient`
calls that all return, with nothing in between, the registry map has exactly
`N` entries, which are the `N` returned handles under their ids; the returned
handles carry pairwise distinct ids; and `GetConnNum` returns `N`. -/
theorem newClients_count (env : Env) (conns : List (Option Nat)) (clock : List Nat)
    (w : World) (hs : List WSClient) (w1 : World) (clock1 : List Nat)
    (hempty : w.mapClient = [])
    (h : newClients env conns clock w = some (hs, w1, clock1)) :
    w1.mapClient.length = conns.length ∧
      hs.length = conns.length ∧
      w1.mapClient = (hs.map (fun c => (c.id, c))).reverse ∧
      (hs.map WSClient.id).Nodup ∧
      (GetConnNum w1).1 = (conns.length : Int) := by
  obtain ⟨hlen, hm, hnd, _⟩ := newClients_mapClient env conns clock w hs w1 clock1 h
  rw [hempty, List.append_nil] at hm
  have hl : w1.mapClient.length = conns.length := by
    rw [hm]; simp [hlen]
  refine ⟨hl, hlen, hm, hnd, ?_⟩
  simp [GetConnNum, hl]

/-- C2 for three connections accepted on node 3 within clock second 5, from
the empty registry. -/
theorem newClients_count_witness :
    ∃ hs w1 clock1,
      newClients sampleEnv [some 1, some 2, none] [5, 5, 5, 6] emptyWorld =
        some (hs, w1, clock1) ∧
      w1.mapClient.length = 3 ∧ hs.length = 3 ∧ (hs.map WSClient.id).Nodup ∧
      (GetConnNum w1).1 = 3 := by
  have run : newClients sampleEnv [some 1, some 2, none] [5, 5, 5, 6] emptyWorld =
      some ((newClients sampleEnv [some 1, some 2, none] [5, 5, 5, 6] emptyWorld).get
        (by decide)) := by simp
  obtain ⟨h1, h2, _, h4, h5⟩ := newClients_count sampleEnv [some 1, some 2, none]
    [5, 5, 5, 6] emptyWorld _ _ _ rfl run
  exact ⟨_, _, _, run, h1, h2, h4, h5⟩

/-! ## Facts about start-up -/

theorem truncate_intCast (k : Int) : truncate (k : ℚ) = k := by
  simp [truncate]

theorem floatToInt_intCast (impl : ℚ → Nat) (k : Int) (h1 : -(2 ^ 63) ≤ k)
    (h2 : k < 2 ^ 63) : floatToInt impl (k : ℚ) = k := by
  unfold floatToInt
  rw [truncate_intCast, if_pos ⟨h1, h2⟩]

theorem floatToUint32_intCast (impl : ℚ → Nat) (k : Int) (h1 : 0 ≤ k)
    (h2 : k < 2 ^ 32) : ((floatToUint32 impl (k : ℚ) : Nat) : Int) = k := by
  unfold floatToUint32
  rw [truncate_intCast, if_pos ⟨h1, h2⟩]
  exact Int.toNat_of_nonneg h1

/-- Whatever the implementation does, an `int` is below `2 ^ 63`. -/
theorem floatToInt_lt (impl : ℚ → Nat) (v : ℚ) : floatToInt impl v < 2 ^ 63 := by
  unfold floatToInt
  split
  · rename_i h; exact h.2
  · unfold toInt64
    have := Nat.mod_lt (impl v) (show 0 < 2 ^ 64 by decide)
    split <;> omega

/-- Whatever the implementation does, a `uint32` is below `2 ^ 32`. -/
theorem floatToUint32_lt (impl : ℚ → Nat) (v : ℚ) : floatToUint32 impl v < 2 ^ 32 := by
  unfold floatToUint32
  split
  · rename_i h
    have := Int.toNat_of_nonneg h.1
    omega
  · exact Nat.mod_lt _ (by decide)

theorem cfgFloat_of_absent (wsCfg : List (String × CfgValue)) (key : String)
    (h : cfgGet wsCfg key = none) : cfgFloat wsCfg key = some none := by
  simp [cfgFloat, h]

theorem cfgFloat_of_number (wsCfg : List (String × CfgValue)) (key : String) (v : ℚ)
    (h : cfgGet wsCfg key = some (.number v)) : cfgFloat wsCfg key = some (some v) := by
  simp [cfgFloat, h]

/-- What `OnInit` leaves in the listener settings for a configuration map
whose listen address is a string: each setting in terms of the number found
under its key, as far as the type assertions before it succeed. -/
theorem OnInit_fields (impl : ℚ → Nat) (name : String)
    (wsCfg : List (String × CfgValue)) (w : World) (addr : String)
    (haddr : cfgGet wsCfg "ListenAddr" = some (.str addr)) :
    (OnInit impl name (.map wsCfg) w).2.wsServer.Addr = addr ∧
      (OnInit impl name (.map wsCfg) w).2.wsServer.MaxConnNum =
        (((cfgFloat wsCfg "MaxConnNum").getD none).map (floatToInt impl)).getD
          Default_WS_MaxConnNum ∧
      (numberOrAbsent wsCfg "MaxConnNum" = true →
        (OnInit impl name (.map wsCfg) w).2.wsServer.PendingWriteNum =
          (((cfgFloat wsCfg "PendingWriteNum").getD none).map (floatToInt impl)).getD
            Default_WS_PendingWriteNum) ∧
      (numberOrAbsent wsCfg "MaxConnNum" = true →
        numberOrAbsent wsCfg "PendingWriteNum" = true →
        (OnInit impl name (.map wsCfg) w).2.wsServer.MaxMsgLen =
          (((cfgFloat wsCfg "MaxMsgLen").getD none).map (floatToUint32 impl)).getD
            Default_WS_MaxMsgLen) ∧
      (numberOrAbsent wsCfg "MaxConnNum" = true →
        numberOrAbsent wsCfg "PendingWriteNum" = true →
        numberOrAbsent wsCfg "MaxMsgLen" = true →
        (OnInit impl name (.map wsCfg) w).1 = .returned none ∧
        (OnInit impl name (.map wsCfg) w).2.wsServer.NewAgent = true ∧
        (OnInit impl name (.map wsCfg) w).2.mapClient = [] ∧
        (OnInit impl name (.map wsCfg) w).2.trace = w.trace ++ [.ServerStart]) := by
  simp only [OnInit, haddr, numberOrAbsent]
  rcases cfgFloat wsCfg "MaxConnNum" with _ | _ | a <;>
    rcases cfgFloat wsCfg "PendingWriteNum" with _ | _ | b <;>
    rcases cfgFloat wsCfg "MaxMsgLen" with _ | _ | c <;>
    simp [World.emit]

/-! ## Start-up claims -/

/-- C11, as stated, fails, in each of these ways. A `ListenAddr` that is not a
string makes `OnInit` panic with nothing set. A `MaxConnNum` that is not a
number makes it panic before the later keys are read, so `PendingWriteNum`
and `MaxMsgLen` keep their defaults although 9 and 5 are configured, and
likewise a `PendingWriteNum` that is not a number leaves `MaxMsgLen` at its
default. A `MaxConnNum` of one half, or of `2 ^ 63`, cannot be the value of
the `int` field, and a `MaxMsgLen` of `2 ^ 32` cannot be the value of the
`uint32` field, whatever the implementation makes of the conversion, although
`OnInit` returns nil there. -/
theorem OnInit_not_configured :
    OnInit (fun _ => 0) "ws" (.map [("ListenAddr", .number 9000)]) emptyWorld =
        (.panicked, emptyWorld) ∧
      ((OnInit (fun _ => 0) "ws" (.map cfgConnString) emptyWorld).1 = .panicked ∧
        (OnInit (fun _ => 0) "ws" (.map cfgConnString) emptyWorld).2.wsServer.MaxConnNum =
          3000 ∧
        (OnInit (fun _ => 0) "ws" (.map cfgConnString) emptyWorld).2.wsServer.PendingWriteNum =
          10000 ∧
        (OnInit (fun _ => 0) "ws" (.map cfgConnString) emptyWorld).2.wsServer.MaxMsgLen =
          65535) ∧
      ((OnInit (fun _ => 0) "ws" (.map cfgPendingString) emptyWorld).1 = .panicked ∧
        (OnInit (fun _ => 0) "ws" (.map cfgPendingString) emptyWorld).2.wsServer.MaxMsgLen =
          65535) ∧
      (¬ ∃ impl : ℚ → Nat,
        (((OnInit impl "ws" (.map cfgConnHalf) emptyWorld).2.wsServer.MaxConnNum : Int) : ℚ) =
          1 / 2) ∧
      (¬ ∃ impl : ℚ → Nat,
        (OnInit impl "ws" (.map cfgConnOverflow) emptyWorld).2.wsServer.MaxConnNum =
          9223372036854775808) ∧
      ((OnInit (fun _ => 0) "ws" (.map cfgLenOverflow) emptyWorld).1 = .returned none ∧
        ¬ ∃ impl : ℚ → Nat,
          ((OnInit impl "ws" (.map cfgLenOverflow) emptyWorld).2.wsServer.MaxMsgLen : Int) =
            4294967296) := by
  refine ⟨?_, ⟨?_, ?_, ?_, ?_⟩, ⟨?_, ?_⟩, ?_, ?_, ?_, ?_⟩
  · simp [OnInit, cfgGet]
  · simp [OnInit, cfgGet, cfgFloat, cfgConnString]
  · simp [OnInit, cfgGet, cfgFloat, cfgConnString, Default_WS_MaxConnNum]
  · simp [OnInit, cfgGet, cfgFloat, cfgConnString, Default_WS_PendingWriteNum]
  · simp [OnInit, cfgGet, cfgFloat, cfgConnString, Default_WS_MaxMsgLen]
  · simp [OnInit, cfgGet, cfgFloat, cfgPendingString]
  · simp [OnInit, cfgGet, cfgFloat, cfgPendingString, Default_WS_MaxMsgLen]
  · rintro ⟨impl, h⟩
    have h2 : ((2 * (OnInit impl "ws" (.map cfgConnHalf)
        emptyWorld).2.wsServer.MaxConnNum : Int) : ℚ) = ((1 : Int) : ℚ) := by
      push_cast
      rw [h]
      norm_num
    have h3 := Int.cast_injective h2
    omega
  · rintro ⟨impl, h⟩
    have e := (OnInit_fields impl "ws" cfgConnOverflow emptyWorld "127.0.0.1:9000"
      (by simp [cfgGet, cfgConnOverflow])).2.1
    rw [e] at h
    have hf : cfgFloat cfgConnOverflow "MaxConnNum" = some (some 9223372036854775808) := by
      simp [cfgFloat, cfgGet, cfgConnOverflow]
    rw [hf] at h
    simp only [Option.getD_some, Option.map_some'] at h
    have := floatToInt_lt impl 9223372036854775808
    omega
  · simp [OnInit, cfgGet, cfgFloat, cfgLenOverflow, World.emit]
  · rintro ⟨impl, h⟩
    have e := (OnInit_fields impl "ws" cfgLenOverflow emptyWorld "127.0.0.1:9000"
      (by simp [cfgGet, cfgLenOverflow])).2.2.2.1
      (by simp [numberOrAbsent, cfgFloat, cfgGet, cfgLenOverflow])
      (by simp [numberOrAbsent, cfgFloat, cfgGet, cfgLenOverflow])
    rw [e] at h
    have hf : cfgFloat cfgLenOverflow "MaxMsgLen" = some (some 4294967296) := by
      simp [cfgFloat, cfgGet, cfgLenOverflow]
    rw [hf] at h
    simp only [Option.getD_some, Option.map_some'] at h
    have := floatToUint32_lt impl 4294967296
    omega

/-- C11, amended: for a configuration map whose `ListenAddr` is a string,
`OnInit` sets the listener address to that string. It reads `MaxConnNum`,
`PendingWriteNum` and `MaxMsgLen` in this order, and each of them, provided
the keys read before it are absent or hold numbers, is set to its default
(3000, 10000, 65535) when its key is absent and to the configured value when
its key holds a number that is an integer fitting the field (`int` for the
first two, `uint32` for `MaxMsgLen`). When all three keys are absent or hold
numbers `OnInit` returns nil, creates an empty registry, binds the
new-connection callback and starts the listener. -/
theorem OnInit_settings (impl : ℚ → Nat) (name : String)
    (wsCfg : List (String × CfgValue)) (w : World) (addr : String)
    (haddr : cfgGet wsCfg "ListenAddr" = some (.str addr)) :
    (OnInit impl name (.map wsCfg) w).2.wsServer.Addr = addr ∧
      (cfgGet wsCfg "MaxConnNum" = none →
        (OnInit impl name (.map wsCfg) w).2.wsServer.MaxConnNum = 3000) ∧
      (∀ k : Int, cfgGet wsCfg "MaxConnNum" = some (.number (k : ℚ)) →
        -(2 ^ 63) ≤ k → k < 2 ^ 63 →
        (OnInit impl name (.map wsCfg) w).2.wsServer.MaxConnNum = k) ∧
      (numberOrAbsent wsCfg "MaxConnNum" = true →
        (cfgGet wsCfg "PendingWriteNum" = none →
          (OnInit impl name (.map wsCfg) w).2.wsServer.PendingWriteNum = 10000) ∧
        (∀ k : Int, cfgGet wsCfg "PendingWriteNum" = some (.number (k : ℚ)) →
          -(2 ^ 63) ≤ k → k < 2 ^ 63 →
          (OnInit impl name (.map wsCfg) w).2.wsServer.PendingWriteNum = k)) ∧
      (numberOrAbsent wsCfg "MaxConnNum" = true →
        numberOrAbsent wsCfg "PendingWriteNum" = true →
        (cfgGet wsCfg "MaxMsgLen" = none →
          (OnInit impl name (.map wsCfg) w).2.wsServer.MaxMsgLen = 65535) ∧
        (∀ k : Int, cfgGet wsCfg "MaxMsgLen" = some (.number (k : ℚ)) →
          0 ≤ k → k < 2 ^ 32 →
          ((OnInit impl name (.map wsCfg) w).2.wsServer.MaxMsgLen : Int) = k)) ∧
      (numberOrAbsent wsCfg "MaxConnNum" = true →
        numberOrAbsent wsCfg "PendingWriteNum" = true →
        numberOrAbsent wsCfg "MaxMsgLen" = true →
        (OnInit impl name (.map wsCfg) w).1 = .returned none ∧
        (OnInit impl name (.map wsCfg) w).2.wsServer.NewAgent = true ∧
        (OnInit impl name (.map wsCfg) w).2.mapClient = [] ∧
        (OnInit impl name (.map wsCfg) w).2.trace = w.trace ++ [.ServerStart]) := by
  obtain ⟨fAddr, fConn, fPend, fLen, fRet⟩ := OnInit_fields impl name wsCfg w addr haddr
  refine ⟨fAddr, ?_, ?_, ?_, ?_, fRet⟩
  · intro h
    rw [fConn, cfgFloat_of_absent _ _ h]
    rfl
  · intro k h h1 h2
    rw [fConn, cfgFloat_of_number _ _ _ h]
    exact floatToInt_intCast impl k h1 h2
  · intro t1
    refine ⟨?_, ?_⟩
    · intro h
      rw [fPend t1, cfgFloat_of_absent _ _ h]
      rfl
    · intro k h h1 h2
      rw [fPend t1, cfgFloat_of_number _ _ _ h]
      exact floatToInt_intCast impl k h1 h2
  · intro t1 t2
    refine ⟨?_, ?_⟩
    · intro h
      rw [fLen t1 t2, cfgFloat_of_absent _ _ h]
      rfl
    · intro k h h1 h2
      rw [fLen t1 t2, cfgFloat_of_number _ _ _ h]
      exact floatToUint32_intCast impl k h1 h2

/-- C11, amended, on three configurations. With all three numeric keys set to
fitting integers every setting takes its configured value; with
`MaxMsgLen` set to `2 ^ 32` the earlier `MaxConnNum` still takes its
configured 7 and the absent `PendingWriteNum` its default; with only
`ListenAddr` the defaults 3000, 10000 and 65535 apply. -/
theorem OnInit_settings_witness :
    ((OnInit (fun _ => 0) "ws" (.map cfgAllSet) emptyWorld).1 = .returned none ∧
        (OnInit (fun _ => 0) "ws" (.map cfgAllSet) emptyWorld).2.wsServer.Addr =
          "0.0.0.0:80" ∧
        (OnInit (fun _ => 0) "ws" (.map cfgAllSet) emptyWorld).2.wsServer.MaxConnNum = 7 ∧
        (OnInit (fun _ => 0) "ws" (.map cfgAllSet) emptyWorld).2.wsServer.PendingWriteNum =
          -1 ∧
        ((OnInit (fun _ => 0) "ws" (.map cfgAllSet) emptyWorld).2.wsServer.MaxMsgLen : Int) =
          1024) ∧
      ((OnInit (fun _ => 0) "ws" (.map cfgLenOverflow) emptyWorld).2.wsServer.MaxConnNum = 7 ∧
        (OnInit (fun _ => 0) "ws" (.map cfgLenOverflow) emptyWorld).2.wsServer.PendingWriteNum =
          10000) ∧
      ((OnInit (fun _ => 0) "ws" (.map cfgOnlyAddr) emptyWorld).1 = .returned none ∧
        (OnInit (fun _ => 0) "ws" (.map cfgOnlyAddr) emptyWorld).2.wsServer.MaxConnNum =
          3000 ∧
        (OnInit (fun _ => 0) "ws" (.map cfgOnlyAddr) emptyWorld).2.wsServer.PendingWriteNum =
          10000 ∧
        (OnInit (fun _ => 0) "ws" (.map cfgOnlyAddr) emptyWorld).2.wsServer.MaxMsgLen =
          65535) := by
  have hA := OnInit_settings (fun _ => 0) "ws" cfgAllSet emptyWorld "0.0.0.0:80"
    (by simp [cfgGet, cfgAllSet])
  have hL := OnInit_settings (fun _ => 0) "ws" cfgLenOverflow emptyWorld "127.0.0.1:9000"
    (by simp [cfgGet, cfgLenOverflow])
  have hO := OnInit_settings (fun _ => 0) "ws" cfgOnlyAddr emptyWorld "127.0.0.1:9000"
    (by simp [cfgGet, cfgOnlyAddr])
  have tA1 : numberOrAbsent cfgAllSet "MaxConnNum" = true := by
    simp [numberOrAbsent, cfgFloat, cfgGet, cfgAllSet]
  have tA2 : numberOrAbsent cfgAllSet "PendingWriteNum" = true := by
    simp [numberOrAbsent, cfgFloat, cfgGet, cfgAllSet]
  have tA3 : numberOrAbsent cfgAllSet "MaxMsgLen" = true := by
    simp [numberOrAbsent, cfgFloat, cfgGet, cfgAllSet]
  have tL1 : numberOrAbsent cfgLenOverflow "MaxConnNum" = true := by
    simp [numberOrAbsent, cfgFloat, cfgGet, cfgLenOverflow]
  have tO1 : numberOrAbsent cfgOnlyAddr "MaxConnNum" = true := by
    simp [numberOrAbsent, cfgFloat, cfgGet, cfgOnlyAddr]
  have tO2 : numberOrAbsent cfgOnlyAddr "PendingWriteNum" = true := by
    simp [numberOrAbsent, cfgFloat, cfgGet, cfgOnlyAddr]
  have tO3 : numberOrAbsent cfgOnlyAddr "MaxMsgLen" = true := by
    simp [numberOrAbsent, cfgFloat, cfgGet, cfgOnlyAddr]
  refine ⟨⟨(hA.2.2.2.2.2 tA1 tA2 tA3).1, hA.1, ?_, ?_, ?_⟩, ⟨?_, ?_⟩,
    ⟨(hO.2.2.2.2.2 tO1 tO2 tO3).1, ?_, ?_, ?_⟩⟩
  · exact hA.2.2.1 7 (by simp [cfgGet, cfgAllSet]) (by decide) (by decide)
  · exact (hA.2.2.2.1 tA1).2 (-1) (by simp [cfgGet, cfgAllSet]) (by decide) (by decide)
  · exact (hA.2.2.2.2.1 tA1 tA2).2 1024 (by simp [cfgGet, cfgAllSet]) (by decide)
      (by decide)
  · exact hL.2.2.1 7 (by simp [cfgGet, cfgLenOverflow]) (by decide) (by decide)
  · exact (hL.2.2.2.1 tL1).1 (by simp [cfgGet, cfgLenOverflow])
  · exact hO.2.1 (by simp [cfgGet, cfgOnlyAddr])
  · exact (hO.2.2.2.1 tO1).1 (by simp [cfgGet, cfgOnlyAddr])
  · exact (hO.2.2.2.2.1 tO1 tO2).1 (by simp [cfgGet, cfgOnlyAddr])

/-- C12: called with no service configuration, or with a configuration map
that lacks `ListenAddr`, `OnInit` returns the configuration error and leaves
the whole state as it was: the listener settings and the registry are
untouched and the listener is not started. -/
theorem OnInit_config_error (impl : ℚ → Nat) (name : String)
    (wsCfg : List (String × CfgValue)) (w : World) :
    OnInit impl name .nil w = (.returned (some (configError name)), w) ∧
      (cfgGet wsCfg "ListenAddr" = none →
        OnInit impl name (.map wsCfg) w = (.returned (some (configError name)), w) ∧
        (OnInit impl name (.map wsCfg) w).2.wsServer = w.wsServer ∧
        (OnInit impl name (.map wsCfg) w).2.mapClient = w.mapClient ∧
        (OnInit impl name (.map wsCfg) w).2.trace = w.trace) := by
  refine ⟨rfl, ?_⟩
  intro h
  have e : OnInit impl name (.map wsCfg) w = (.returned (some (configError name)), w) := by
    simp [OnInit, h]
  rw [e]
  exact ⟨rfl, rfl, rfl, rfl⟩

/-- C12 on the sample registry, with a configuration that sets only
`MaxConnNum`. -/
theorem OnInit_config_error_witness :
    OnInit (fun _ => 0) "ws" (.map [("MaxConnNum", .number 10)]) sampleWorld =
      (.returned (some "ws service config is error!"), sampleWorld) :=
  (((OnInit_config_error (fun _ => 0) "ws" [("MaxConnNum", .number 10)] sampleWorld).2
    (by decide)).1).trans (by decide)

/-! ## Send failures -/

/-- C13: for a live id, when `Marshal` fails `SendMsg` returns that encode
error, makes no `WriteMsg` call and exactly one `Marshal` call, and leaves
the registry map unchanged; when `Marshal` succeeds and the `WriteMsg` on the
client's connection fails, `SendMsg` returns that write error after exactly
one `Marshal` and one `WriteMsg` call, and leaves the registry map unchanged:
the entry of the session stays. -/
theorem SendMsg_failures (env : Env) (clientid : Nat) (msg : Iface) (w : World)
    (client : WSClient) (hlive : mapGet w.mapClient clientid = some client) :
    (∀ err, env.Marshal clientid msg = .error err →
        (SendMsg env clientid msg w).1 = .returned (some err) ∧
        written (SendMsg env clientid msg w).2.trace = written w.trace ∧
        marshalled (SendMsg env clientid msg w).2.trace =
          marshalled w.trace ++ [(clientid, msg)] ∧
        (SendMsg env clientid msg w).2.mapClient = w.mapClient) ∧
      (∀ bytes conn err, env.Marshal clientid msg = .ok bytes →
        client.wsConn = some conn → env.WriteMsg conn bytes = some err →
        (SendMsg env clientid msg w).1 = .returned (some err) ∧
        written (SendMsg env clientid msg w).2.trace = written w.trace ++ [(conn, bytes)] ∧
        marshalled (SendMsg env clientid msg w).2.trace =
          marshalled w.trace ++ [(clientid, msg)] ∧
        (SendMsg env clientid msg w).2.mapClient = w.mapClient ∧
        mapGet (SendMsg env clientid msg w).2.mapClient clientid = some client) := by
  constructor
  · intro err hm
    simp [SendMsg, hlive, hm, World.emit, marshalled_append, written_append,
      marshalled, written]
  · intro bytes conn err hm hc hw
    simp [SendMsg, hlive, hm, hc, hw, World.emit, marshalled_append, written_append,
      marshalled, written]

/-- C13 on the sample registry with the sample processor, which cannot encode
the value 5: the send to the live client 11 returns the encode error and
writes nothing. -/
theorem SendMsg_failures_witness :
    (SendMsg sampleEnv 11 (.value 5) sampleWorld).1 = .returned (some "cannot encode") ∧
      written (SendMsg sampleEnv 11 (.value 5) sampleWorld).2.trace =
        written sampleWorld.trace ∧
      marshalled (SendMsg sampleEnv 11 (.value 5) sampleWorld).2.trace =
        marshalled sampleWorld.trace ++ [(11, .value 5)] ∧
      (SendMsg sampleEnv 11 (.value 5) sampleWorld).2.mapClient = sampleWorld.mapClient :=
  (SendMsg_failures sampleEnv 11 (.value 5) sampleWorld { id := 11, wsConn := some 1 }
    (by decide)).1 "cannot encode" rfl

/-! ## Disconnect ordering -/

/-- C14: for a registry that holds the session `slf` under its id, `OnClose`
adds exactly one notified pack, the `WPT_DisConnected` pack carrying that id;
the notification comes before the locked delete, and the registry still
holds the session when it is made; on return the id is absent from the
registry and every other id looks up as before. -/
theorem OnClose_order (slf : WSClient) (w : World)
    (hlive : mapGet w.mapClient slf.id = some slf) :
    OnClose slf w = OnClose.remove slf (OnClose.notify slf w) ∧
      (OnClose.notify slf w).trace =
        w.trace ++
          [.NotifyEvent
            { Typ := WPT_DisConnected, MsgProcessor := w.process, ClientId := slf.id,
              Data := .nil }] ∧
      mapGet (OnClose.notify slf w).mapClient slf.id = some slf ∧
      (OnClose slf w).trace =
        w.trace ++
          [.NotifyEvent
            { Typ := WPT_DisConnected, MsgProcessor := w.process, ClientId := slf.id,
              Data := .nil },
            .Lock, .MapDelete slf.id, .Unlock] ∧
      notified (OnClose slf w).trace =
        notified w.trace ++
          [{ Typ := WPT_DisConnected, MsgProcessor := w.process, ClientId := slf.id,
             Data := .nil }] ∧
      mapGet (OnClose slf w).mapClient slf.id = none ∧
      ∀ other, other ≠ slf.id →
        mapGet (OnClose slf w).mapClient other = mapGet w.mapClient other := by
  refine ⟨rfl, rfl, hlive, ?_, OnClose_notified slf w, ?_, ?_⟩
  · simp [OnClose, OnClose.remove, OnClose.notify, World.emit, WSClient.GetId]
  · rw [OnClose_mapClient]
    exact mapGet_mapDelete_self _ _
  · intro other h
    rw [OnClose_mapClient]
    exact mapGet_mapDelete_of_ne _ _ _ h

/-- C14 on the sample registry, closing client 11: one DisConnected pack is
notified, 11 is gone afterwards and 12 is still there. -/
theorem OnClose_order_witness :
    notified (OnClose { id := 11, wsConn := some 1 } sampleWorld).trace =
        [{ Typ := 1, MsgProcessor := 0, ClientId := 11, Data := .nil }] ∧
      mapGet (OnClose { id := 11, wsConn := some 1 } sampleWorld).mapClient 11 = none ∧
      mapGet (OnClose { id := 11, wsConn := some 1 } sampleWorld).mapClient 12 =
        some { id := 12, wsConn := some 2 } :=
  ⟨(OnClose_order { id := 11, wsConn := some 1 } sampleWorld (by decide)).2.2.2.2.1,
    (OnClose_order { id := 11, wsConn := some 1 } sampleWorld (by decide)).2.2.2.2.2.1,
    ((OnClose_order { id := 11, wsConn := some 1 } sampleWorld
      (by decide)).2.2.2.2.2.2 12 (by decide)).trans (by decide)⟩

/-! ## Identifier layout claims -/

/-- The fields of a packed identifier. -/
theorem pack_fields (m t c : Nat) (hm : m ≤ 1023) (ht : t < 60) (hc : c < 4194303) :
    (m * 2 ^ 54 + t * 2 ^ 22 + c) % 2 ^ 22 = c ∧
      (m * 2 ^ 54 + t * 2 ^ 22 + c) / 2 ^ 22 = m * 2 ^ 32 + t ∧
      (m * 2 ^ 54 + t * 2 ^ 22 + c) / 2 ^ 54 = m ∧
      (m * 2 ^ 54 + t * 2 ^ 22 + c) % 2 ^ 64 / 2 ^ 54 = m ∧
      m * 2 ^ 54 + t * 2 ^ 22 + c < 2 ^ 64 := by
  refine ⟨?_, ?_, ?_, ?_, ?_⟩ <;> omega

/-- The counter value a call produces is below `MaxSeed`. -/
theorem seed_step_lt (seed : Nat) : (seed + 1) % 2 ^ 32 % 4194303 < 4194303 :=
  Nat.mod_lt _ (by decide)

/-- From a counter value below `MaxSeed` the next call produces a different
value. -/
theorem seed_step_ne (c : Nat) (hc : c < 4194303) : (c + 1) % 2 ^ 32 % 4194303 ≠ c := by
  have e : (c + 1) % 2 ^ 32 = c + 1 := Nat.mod_eq_of_lt (by omega)
  rw [e]
  omega

/-- C15: two consecutive `genId` calls on a node with `0 ≤ n ≤ 1023` that
read the same clock second return distinct identifiers that agree on every
bit above the low 22 and both decode to `n` through `GetNodeId`; when the
counter starts at `0` their low 22-bit fields are `1` and `2`. -/
theorem genId_consecutive (n : Int) (now1 now2 seed : Nat) (h0 : 0 ≤ n) (h1 : n ≤ 1023)
    (hsec : Second now1 = Second now2) :
    ∃ id1 id2, (genId n now1 seed).id = some id1 ∧
      (genId n now2 (genId n now1 seed).seed).id = some id2 ∧
      id1 ≠ id2 ∧ id1 >>> 22 = id2 >>> 22 ∧
      GetNodeId id1 = n ∧ GetNodeId id2 = n ∧
      (seed = 0 → id1 % 2 ^ 22 = 1 ∧ id2 % 2 ^ 22 = 2) := by
  obtain ⟨m, rfl⟩ := Int.eq_ofNat_of_zero_le h0
  have hm : m ≤ 1023 := by exact_mod_cast h1
  have hs : Second now2 < 60 := Nat.mod_lt _ (by decide)
  have hc1 := seed_step_lt seed
  have hc2 := seed_step_lt ((seed + 1) % 2 ^ 32 % 4194303)
  have hstep := seed_step_ne _ hc1
  obtain ⟨f1, f2, _, f4, _⟩ := pack_fields m (Second now2) _ hm hs hc1
  obtain ⟨g1, g2, _, g4, _⟩ := pack_fields m (Second now2) _ hm hs hc2
  simp only [genId_valid m _ _ hm, hsec, MaxSeed_eq]
  refine ⟨_, _, rfl, rfl, ?_, ?_, ?_, ?_, ?_⟩
  · intro h
    exact hstep (Nat.add_left_cancel h).symm
  · rw [Nat.shiftRight_eq_div_pow, Nat.shiftRight_eq_div_pow, f2, g2]
  · unfold GetNodeId
    rw [Nat.shiftRight_eq_div_pow, f4]
  · unfold GetNodeId
    rw [Nat.shiftRight_eq_div_pow, g4]
  · intro hz
    subst hz
    rw [f1, g1]
    exact ⟨by decide, by decide⟩

/-- C15 on node 3 at clock reading 1730714405 with the counter at 0. -/
theorem genId_consecutive_witness :
    ∃ id1 id2, (genId 3 1730714405 0).id = some id1 ∧
      (genId 3 1730714405 (genId 3 1730714405 0).seed).id = some id2 ∧
      id1 ≠ id2 ∧ id1 >>> 22 = id2 >>> 22 ∧
      GetNodeId id1 = 3 ∧ GetNodeId id2 = 3 ∧
      ((0 : Nat) = 0 → id1 % 2 ^ 22 = 1 ∧ id2 % 2 ^ 22 = 2) :=
  genId_consecutive 3 1730714405 1730714405 0 (by decide) (by decide) rfl

/-- C17: at the clock reading `1730714461` the timestamp field of the minted
identifier (bits 22 to 53) holds `1`, the second within the minute, not the
reading truncated to the 32 bits of the field, which is `1730714461`. -/
theorem genId_timestamp_field :
    (genId 1 1730714461 0).id = some 18014398513676289 ∧
      (18014398513676289 >>> 22) % 2 ^ 32 = 1 ∧
      1730714461 % 2 ^ 32 = 1730714461 ∧
      Second 1730714461 = 1 := by
  decide

/-- C18: for `0 ≤ n ≤ 1023` the identifier `genId` returns is
`n * 2 ^ 54 + s * 2 ^ 22 + c`, with `s < 60` the second of the minute it read
and `c < 2 ^ 22` the counter value it produced; so `c` is the identifier
modulo `2 ^ 22`, `s` is its shift by 22 modulo `2 ^ 32`, `n` is its shift by
54, it is below `2 ^ 64`, and two calls that return the same identifier agree
on `n`, `s` and `c`. -/
theorem genId_fields (n n2 : Int) (now now2 seed seed2 : Nat)
    (h0 : 0 ≤ n) (h1 : n ≤ 1023) (h02 : 0 ≤ n2) (h12 : n2 ≤ 1023) :
    (∃ id, (genId n now seed).id = some id ∧
        id = n.toNat * 2 ^ 54 + Second now * 2 ^ 22 + (genId n now seed).seed ∧
        Second now < 60 ∧ (genId n now seed).seed < 2 ^ 22 ∧
        id % 2 ^ 22 = (genId n now seed).seed ∧
        (id >>> 22) % 2 ^ 32 = Second now ∧
        ((id >>> 54 : Nat) : Int) = n ∧
        id < 2 ^ 64) ∧
      ((genId n now seed).id = (genId n2 now2 seed2).id →
        n = n2 ∧ Second now = Second now2 ∧
          (genId n now seed).seed = (genId n2 now2 seed2).seed) := by
  obtain ⟨m, rfl⟩ := Int.eq_ofNat_of_zero_le h0
  obtain ⟨m2, rfl⟩ := Int.eq_ofNat_of_zero_le h02
  have hm : m ≤ 1023 := by exact_mod_cast h1
  have hm2 : m2 ≤ 1023 := by exact_mod_cast h12
  have hs : Second now < 60 := Nat.mod_lt _ (by decide)
  have hs2 : Second now2 < 60 := Nat.mod_lt _ (by decide)
  have hc := seed_step_lt seed
  have hc2 := seed_step_lt seed2
  obtain ⟨f1, f2, f3, _, f5⟩ := pack_fields m (Second now) _ hm hs hc
  simp only [genId_valid m _ _ hm, genId_valid m2 _ _ hm2, MaxSeed_eq, Int.toNat_ofNat,
    Option.some.injEq]
  constructor
  · refine ⟨_, rfl, rfl, hs, ?_, f1, ?_, ?_, f5⟩
    · exact Nat.lt_trans hc (by decide)
    · rw [Nat.shiftRight_eq_div_pow, f2]
      omega
    · rw [Nat.shiftRight_eq_div_pow, f3]
  · intro h
    generalize (seed + 1) % 2 ^ 32 % 4194303 = c at hc h ⊢
    generalize (seed2 + 1) % 2 ^ 32 % 4194303 = c2 at hc2 h ⊢
    generalize Second now = t at hs h ⊢
    generalize Second now2 = t2 at hs2 h ⊢
    have e : m = m2 := by omega
    subst e
    refine ⟨rfl, ?_, ?_⟩ <;> omega

/-- C18 on node 1023 at second 59 of the minute, with the counter at
4194300. -/
theorem genId_fields_witness :
    ∃ id, (genId 1023 119 4194300).id = some id ∧
      id = (1023 : Int).toNat * 2 ^ 54 + Second 119 * 2 ^ 22 + (genId 1023 119 4194300).seed ∧
      Second 119 < 60 ∧ (genId 1023 119 4194300).seed < 2 ^ 22 ∧
      id % 2 ^ 22 = (genId 1023 119 4194300).seed ∧
      (id >>> 22) % 2 ^ 32 = Second 119 ∧
      ((id >>> 54 : Nat) : Int) = 1023 ∧
      id < 2 ^ 64 :=
  (genId_fields 1023 1023 119 119 4194300 4194300 (by decide) (by decide) (by decide)
    (by decide)).1

/-! ## Lock discipline of the registry operations -/

/-- `Close` takes the lock, looks the id up and releases the lock. -/
theorem Close_locked (clientid : Nat) (w : World) :
    ∃ new, (Close clientid w).trace = w.trace ++ new ∧ lockedOk false new = true := by
  unfold Close
  cases mapGet w.mapClient clientid with
  | none => exact ⟨[.Lock, .MapGet clientid, .Unlock], by simp [World.emit], rfl⟩
  | some client =>
    cases hc : client.wsConn with
    | none => exact ⟨[.Lock, .MapGet clientid, .Unlock], by simp [World.emit, hc], rfl⟩
    | some conn =>
      exact ⟨[.Lock, .MapGet clientid, .ConnClose conn, .Unlock],
        by simp [World.emit, hc], rfl⟩

/-- `OnClose` deletes under the lock and releases it. -/
theorem OnClose_locked (slf : WSClient) (w : World) :
    ∃ new, (OnClose slf w).trace = w.trace ++ new ∧ lockedOk false new = true :=
  ⟨[.NotifyEvent
      { ClientId := slf.id, Typ := WPT_DisConnected, MsgProcessor := w.process,
        Data := .nil },
    .Lock, .MapDelete slf.id, .Unlock],
    by simp [OnClose, OnClose.remove, OnClose.notify, World.emit, WSClient.GetId], rfl⟩

/-- `SendMsg` looks the id up under the lock and releases it on both paths
before it encodes or writes. -/
theorem SendMsg_locked (env : Env) (clientid : Nat) (msg : Iface) (w : World) :
    ∃ new, (SendMsg env clientid msg w).2.trace = w.trace ++ new ∧
      lockedOk false new = true := by
  unfold SendMsg
  cases mapGet w.mapClient clientid with
  | none => exact ⟨[.Lock, .MapGet clientid, .Unlock], by simp [World.emit], rfl⟩
  | some client =>
    cases env.Marshal clientid msg with
    | error err =>
      exact ⟨[.Lock, .MapGet clientid, .Unlock, .Marshal clientid msg],
        by simp [World.emit], rfl⟩
    | ok bytes =>
      cases hc : client.wsConn with
      | none =>
        exact ⟨[.Lock, .MapGet clientid, .Unlock, .Marshal clientid msg],
          by simp [World.emit, hc], rfl⟩
      | some conn =>
        exact ⟨[.Lock, .MapGet clientid, .Unlock, .Marshal clientid msg,
          .SetWriteDeadline conn deadline, .WriteMsg conn bytes],
          by simp [World.emit, hc], rfl⟩

/-- The loop of `NewWSClient`, entered with the lock held, accesses the map
under the lock and releases it when it returns or panics. -/
theorem NewWSClient_loop_locked (env : Env) (conn : Option Nat) (clock : List Nat)
    (w : World) :
    ∃ new, (NewWSClient.loop env conn clock w).2.1.trace = w.trace ++ new ∧
      ((NewWSClient.loop env conn clock w).1 ≠ .running → lockedOk true new = true) := by
  induction clock generalizing w with
  | nil => exact ⟨[], by simp [NewWSClient.loop], by simp [NewWSClient.loop]⟩
  | cons now clock ih =>
    simp only [NewWSClient.loop]
    cases hg : (genId env.nodeId now w.seed).id with
    | none => exact ⟨[.Unlock], by simp [World.emit], fun _ => rfl⟩
    | some clientId =>
      simp only []
      cases hm : mapGet w.mapClient clientId with
      | some old =>
        simp only [World.emit, hm]
        obtain ⟨new, h1, h2⟩ := ih
          { seed := (genId env.nodeId now w.seed).seed, mapClient := w.mapClient,
            initClientId := (w.initClientId + 1) % 2 ^ 64, process := w.process,
            trace := w.trace ++ [.MapGet clientId], wsServer := w.wsServer }
        refine ⟨.MapGet clientId :: new, ?_, ?_⟩
        · rw [h1]; simp
        · intro hr
          simpa [lockedOk] using h2 hr
      | none =>
        simp only [World.emit, hm]
        exact ⟨[.MapGet clientId, .MapSet clientId, .Unlock], by simp, fun _ => rfl⟩

/-- `NewWSClient` takes the lock, accesses the map under it and has released
it when it returns or panics. -/
theorem NewWSClient_locked (env : Env) (conn : Option Nat) (clock : List Nat)
    (w : World) :
    ∃ new, (NewWSClient env conn clock w).2.1.trace = w.trace ++ new ∧
      ((NewWSClient env conn clock w).1 ≠ .running → lockedOk false new = true) := by
  obtain ⟨new, h1, h2⟩ := NewWSClient_loop_locked env conn clock (w.emit [.Lock])
  refine ⟨.Lock :: new, ?_, ?_⟩
  · unfold NewWSClient
    rw [h1]
    simp [World.emit]
  · intro hr
    simpa [lockedOk] using h2 hr

/-- C16: `GetConnNum` reads the size of the registry map without taking
`mapClientLocker`: its only effect is the unlocked map access, so its trace
breaks the lock discipline that `NewWSClient`, `OnClose`, `SendMsg` and
`Close` keep. -/
theorem GetConnNum_unlocked :
    (GetConnNum sampleWorld).1 = 2 ∧
      (GetConnNum sampleWorld).2.trace = [.MapLen] ∧
      lockedOk false (GetConnNum sampleWorld).2.trace = false ∧
      lockedOk false (Close 11 sampleWorld).trace = true := by
  decide

/-! ## Termination of the mint-and-retry loop -/

theorem triedIds_cons (m : Nat) (hm : m ≤ 1023) (now : Nat) (clock : List Nat) (seed : Nat) :
    triedIds (m : Int) (now :: clock) seed =
      (m * 2 ^ 54 + Second now * 2 ^ 22 + (seed + 1) % 2 ^ 32 % 4194303) ::
        triedIds (m : Int) clock ((seed + 1) % 2 ^ 32 % 4194303) := by
  simp only [triedIds, genId_valid m _ _ hm, MaxSeed_eq]

/-- With the clock held at one second of the minute, the identifiers tried
differ only in the counter field, which advances by one modulo `MaxSeed`. -/
theorem triedIds_const (m : Nat) (hm : m ≤ 1023) (t : Nat) (clock : List Nat)
    (hclock : ∀ x ∈ clock, Second x = t) (seed : Nat) :
    triedIds (m : Int) clock seed =
      (List.range clock.length).map
        (fun k => m * 2 ^ 54 + t * 2 ^ 22 + ((seed + 1) % 2 ^ 32 % 4194303 + k) % 4194303) := by
  induction clock generalizing seed with
  | nil => simp [triedIds]
  | cons now clock ih =>
    have hnow : Second now = t := hclock now (List.mem_cons_self _ _)
    have hrest : ∀ x ∈ clock, Second x = t := fun x hx => hclock x (List.mem_cons_of_mem _ hx)
    have hc := seed_step_lt seed
    rw [triedIds_cons m hm, ih hrest, List.length_cons, List.range_succ_eq_map,
      List.map_cons, List.map_map, hnow]
    generalize (seed + 1) % 2 ^ 32 % 4194303 = c at hc
    have e0 : (c + 0) % 4194303 = c := by
      rw [Nat.add_zero]; exact Nat.mod_eq_of_lt hc
    have e1 : (c + 1) % 2 ^ 32 = c + 1 := Nat.mod_eq_of_lt (by omega)
    rw [e0, e1]
    congr 1
    apply List.map_congr_left
    intro k _
    simp only [Function.comp_apply, Nat.succ_eq_add_one]
    congr 1
    omega

/-- The first `j` identifiers tried are pairwise distinct as long as `j` does
not exceed `MaxSeed`. -/
theorem triedIds_take_nodup (m : Nat) (hm : m ≤ 1023) (t : Nat) (clock : List Nat)
    (hclock : ∀ x ∈ clock, Second x = t) (seed : Nat) (j : Nat) (hj : j ≤ 4194303) :
    ((triedIds (m : Int) clock seed).take j).Nodup := by
  rw [triedIds_const m hm t clock hclock seed, ← List.map_take, List.take_range]
  apply List.Nodup.map_on _ (List.nodup_range _)
  intro x hx y hy hxy
  have hx2 : x < j := lt_of_lt_of_le (List.mem_range.mp hx) (Nat.min_le_left _ _)
  have hy2 : y < j := lt_of_lt_of_le (List.mem_range.mp hy) (Nat.min_le_left _ _)
  have hc := seed_step_lt seed
  generalize (seed + 1) % 2 ^ 32 % 4194303 = c at hc hxy
  have h2 : (c + x) % 4194303 = (c + y) % 4194303 := by omega
  omega

theorem triedIds_length (m : Nat) (hm : m ≤ 1023) (clock : List Nat) (seed : Nat) :
    (triedIds (m : Int) clock seed).length = clock.length := by
  induction clock generalizing seed with
  | nil => simp [triedIds]
  | cons now clock ih => rw [triedIds_cons m hm, List.length_cons, ih, List.length_cons]

/-- Pairwise distinct identifiers that are all present in the registry are no
more than its entries. -/
theorem present_length_le (reg : List (Nat × WSClient)) (ids : List Nat)
    (hnd : ids.Nodup) (hp : ∀ id ∈ ids, mapGet reg id ≠ none) :
    ids.length ≤ reg.length := by
  have hsub : ids ⊆ mapKeys reg := by
    intro id hid
    by_contra hnot
    exact hp id hid ((mapGet_eq_none_iff reg id).mpr hnot)
  have := (List.subperm_of_subset hnd hsub).length_le
  simpa [mapKeys] using this

/-- On a valid node the loop of `NewWSClient` either finds every identifier
it tries present and is still running when the clock readings are used up, or
returns at the first tried identifier that is absent, having rejected the
ones before it. -/
theorem NewWSClient_loop_cases (env : Env) (conn : Option Nat) (m : Nat) (hm : m ≤ 1023)
    (hn : env.nodeId = (m : Int)) (clock : List Nat) (w : World) :
    ((∀ id ∈ triedIds (m : Int) clock w.seed, mapGet w.mapClient id ≠ none) ∧
        (NewWSClient.loop env conn clock w).1 = .running) ∨
      ∃ j c w1, j < clock.length ∧
        NewWSClient.loop env conn clock w = (.returned c, w1, clock.drop (j + 1)) ∧
        (∀ id ∈ (triedIds (m : Int) clock w.seed).take j, mapGet w.mapClient id ≠ none) ∧
        mapGet w.mapClient c.id = none ∧
        w1.mapClient = (c.id, c) :: w.mapClient ∧
        w1.trace = w.trace ++ ((triedIds (m : Int) clock w.seed).take j).map Effect.MapGet ++
          [.MapGet c.id, .MapSet c.id, .Unlock] := by
  induction clock generalizing w with
  | nil =>
    left
    simp [triedIds, NewWSClient.loop]
  | cons now clock ih =>
    have hg := genId_valid m now w.seed hm
    rw [triedIds_cons m hm]
    simp only [NewWSClient.loop, hn, hg, MaxSeed_eq]
    cases hmap : mapGet w.mapClient
        (m * 2 ^ 54 + Second now * 2 ^ 22 + (w.seed + 1) % 2 ^ 32 % 4194303) with
    | some old =>
      simp only [World.emit, hmap]
      rcases ih
        { seed := (w.seed + 1) % 2 ^ 32 % 4194303, mapClient := w.mapClient,
          initClientId := (w.initClientId + 1) % 2 ^ 64, process := w.process,
          trace := w.trace ++
            [.MapGet (m * 2 ^ 54 + Second now * 2 ^ 22 + (w.seed + 1) % 2 ^ 32 % 4194303)],
          wsServer := w.wsServer } with ⟨hall, hrun⟩ | ⟨j, c, w1, hj, hret, hrej, habs, hreg, htr⟩
      · left
        refine ⟨?_, hrun⟩
        intro id hid
        rcases List.mem_cons.mp hid with rfl | hid
        · rw [hmap]; simp
        · exact hall id hid
      · right
        refine ⟨j + 1, c, w1, by simpa using hj, by simpa using hret, ?_, habs, hreg, ?_⟩
        · intro id hid
          rw [List.take_succ_cons] at hid
          rcases List.mem_cons.mp hid with rfl | hid
          · rw [hmap]; simp
          · exact hrej id hid
        · rw [htr]
          simp [List.take_succ_cons]
    | none =>
      right
      simp only [World.emit, hmap]
      refine ⟨0, _, _, by simp, rfl, by simp, hmap, ?_, by simp⟩
      simp only [mapSet, mapDelete_of_absent _ _ hmap]

/-- C19: on a node with a valid identity, with the clock held at one second
of the minute, a registry of fewer than `MaxSeed = 2 ^ 22 - 1` entries and
more clock readings on offer than the registry has entries, `NewWSClient`
returns after rejecting no more identifiers than the registry holds, that is
after at most `2 ^ 22 - 1` `genId` calls; every identifier it rejects was
present in the registry; the handle it returns carries an identifier that was
absent; and the registry grows by exactly that one entry. -/
theorem NewWSClient_terminates (env : Env) (conn : Option Nat) (clock : List Nat)
    (w : World) (t : Nat) (h0 : 0 ≤ env.nodeId) (h1 : env.nodeId ≤ 1023)
    (hclock : ∀ x ∈ clock, Second x = t)
    (hsize : w.mapClient.length < MaxSeed)
    (hlen : w.mapClient.length < clock.length) :
    ∃ (c : WSClient) (w1 : World) (rejected : List Nat),
      NewWSClient env conn clock w = (.returned c, w1, clock.drop (rejected.length + 1)) ∧
      rejected.length ≤ w.mapClient.length ∧
      rejected.length + 1 ≤ MaxSeed ∧
      (∀ id ∈ rejected, mapGet w.mapClient id ≠ none) ∧
      mapGet w.mapClient c.id = none ∧
      w1.mapClient = (c.id, c) :: w.mapClient ∧
      w1.mapClient.length = w.mapClient.length + 1 ∧
      w1.trace = w.trace ++ [.Lock] ++ rejected.map Effect.MapGet ++
        [.MapGet c.id, .MapSet c.id, .Unlock] := by
  obtain ⟨m, hn⟩ := Int.eq_ofNat_of_zero_le h0
  have hm : m ≤ 1023 := by rw [hn] at h1; exact_mod_cast h1
  rw [MaxSeed_eq] at hsize ⊢
  have key : ∀ j, j ≤ clock.length →
      (∀ id ∈ (triedIds (m : Int) clock (w.emit [.Lock]).seed).take j,
        mapGet w.mapClient id ≠ none) → j ≤ w.mapClient.length := by
    intro j hj hp
    by_contra hgt
    have hgt2 : w.mapClient.length + 1 ≤ j := by omega
    have hnd := triedIds_take_nodup m hm t clock hclock (w.emit [.Lock]).seed
      (w.mapClient.length + 1) (by omega)
    have hp2 : ∀ id ∈ (triedIds (m : Int) clock (w.emit [.Lock]).seed).take
        (w.mapClient.length + 1), mapGet w.mapClient id ≠ none := by
      intro id hid
      apply hp id
      have hsub := List.take_sublist_take_left
        (triedIds (m : Int) clock (w.emit [.Lock]).seed) hgt2
      exact hsub.subset hid
    have hle := present_length_le w.mapClient _ hnd hp2
    rw [List.length_take, triedIds_length m hm] at hle
    omega
  rcases NewWSClient_loop_cases env conn m hm hn clock (w.emit [.Lock]) with
    ⟨hall, _⟩ | ⟨j, c, w1, hj, hret, hrej, habs, hreg, htr⟩
  · exfalso
    have := key clock.length (le_refl _) (by
      intro id hid
      exact hall id (List.mem_of_mem_take hid))
    omega
  · have hjle := key j (le_of_lt hj) hrej
    have hlenr : ((triedIds (m : Int) clock (w.emit [.Lock]).seed).take j).length = j := by
      rw [List.length_take, triedIds_length m hm]
      omega
    refine ⟨c, w1, (triedIds (m : Int) clock (w.emit [.Lock]).seed).take j, ?_, ?_, ?_,
      hrej, habs, hreg, ?_, ?_⟩
    · rw [hlenr]; exact hret
    · rw [hlenr]; exact hjle
    · rw [hlenr]; omega
    · rw [hreg]; simp [World.emit]
    · rw [htr]; simp [World.emit]

/-- C19 on node 3 with the clock held at second 5 and a registry that already
holds the first identifier the loop mints: the loop rejects it and returns the
next one after two `genId` calls. -/
theorem NewWSClient_terminates_witness :
    ∃ (c : WSClient) (w1 : World) (rejected : List Nat),
      NewWSClient sampleEnv (some 8) [5, 5, 5] collidingWorld =
        (.returned c, w1, [5, 5, 5].drop (rejected.length + 1)) ∧
      rejected.length ≤ collidingWorld.mapClient.length ∧
      rejected.length + 1 ≤ MaxSeed ∧
      (∀ id ∈ rejected, mapGet collidingWorld.mapClient id ≠ none) ∧
      mapGet collidingWorld.mapClient c.id = none ∧
      w1.mapClient = (c.id, c) :: collidingWorld.mapClient ∧
      w1.mapClient.length = collidingWorld.mapClient.length + 1 ∧
      w1.trace = collidingWorld.trace ++ [.Lock] ++ rejected.map Effect.MapGet ++
        [.MapGet c.id, .MapSet c.id, .Unlock] :=
  NewWSClient_terminates sampleEnv (some 8) [5, 5, 5] collidingWorld 5 (by decide)
    (by decide) (by decide) (by decide) (by decide)

end wsservice
